import Mathlib

/-!
Shallow embedding of the transaction-lifecycle slice of the platform
repository: the legacy transaction builder (components/txn_builder), the
ABCI validator callbacks (components/abci_validator_node), the submission
HTTP handlers (components/submission_api), the API cache of the ledger
(src/ledger/src/store/api_cache.rs) and the CLI staking helpers
(src/components/finutils/src/common/mod.rs).

Machine integers are modelled as `Nat` (no sum computed here can overflow a
`u64` on the inputs the claims quantify over, and the claims speak about the
abstract amounts). External cryptographic primitives (zei records, hashes)
are modelled by their visible interface, as the specification treats them as
opaque collaborators.
-/

namespace TxnBuilder

/-- Errors of the legacy platform error enum; only the constructors used by
`add_basic_transfer_asset` are carried. In this generation of the codebase
`InputsError` is a unit-like variant. -/
inductive PlatformError where
  | InputsError
  | ZeiError
  deriving DecidableEq, Repr

/-- Monotone transparent-output identifier. -/
abbrev TxoSID := Nat

/-- An account address wrapping a public key. -/
structure AccountAddress where
  key : Nat
  deriving DecidableEq, Repr

/-- An opened asset record: amount, asset type and owner key revealed. -/
structure OpenAssetRecord where
  amount : Nat
  asset_type : Nat
  pub_key : Nat
  deriving DecidableEq, Repr

def OpenAssetRecord.get_amount (o : OpenAssetRecord) : Nat := o.amount

def OpenAssetRecord.get_asset_type (o : OpenAssetRecord) : Nat := o.asset_type

def OpenAssetRecord.get_pub_key (o : OpenAssetRecord) : Nat := o.pub_key

/-- A blind asset record as seen through the external crypto library: either it
opens (for the right secret key) to an underlying open record, or opening
fails. The cryptography itself is an external collaborator; we model a record
by its openability. -/
abbrev BlindAssetRecord := Option OpenAssetRecord

abbrev XfrSecretKey := Nat

/-- Model of `zei::transfers::open_asset_record`: succeeds iff the record is
openable with the holder's key. -/
def open_asset_record (ba : BlindAssetRecord) (_sk : XfrSecretKey) :
    Option OpenAssetRecord := ba

/-- An asset record to be turned into an output. -/
structure AssetRecord where
  amount : Nat
  asset_type : Nat
  pub_key : Nat
  deriving DecidableEq, Repr

/-- Model of `AssetRecord::new`: the constructor of the external crypto
library. Its failure modes are internal to zei, so it is modelled as always
succeeding (the caller in the source maps any failure to `ZeiError`). -/
def AssetRecord.new (amount : Nat) (asset_type : Nat) (pub_key : Nat) :
    Except PlatformError AssetRecord :=
  .ok ⟨amount, asset_type, pub_key⟩

/-- One entry of the `transfer_from` slice of `add_basic_transfer_asset`:
`(&TxoSID, &BlindAssetRecord, u64, &AccountAddress, &XfrSecretKey)`. -/
structure TransferFromEntry where
  txo_sid : TxoSID
  ba : BlindAssetRecord
  amount : Nat
  addr : AccountAddress
  sk : XfrSecretKey
  deriving DecidableEq, Repr

/-- The collection of `input_oars` (lines 56-62 of the source): opening every
input record in order, with the first failure mapped to `ZeiError` (the
`collect::<Result<Vec<_>, _>>` of the source). -/
def openAll : List TransferFromEntry →
    Except PlatformError (List OpenAssetRecord)
  | [] => .ok []
  | e :: rest =>
    match open_asset_record e.ba e.sk with
    | none => .error PlatformError.ZeiError
    | some oar =>
      match openAll rest with
      | .error err => .error err
      | .ok oars => .ok (oar :: oars)

/-- The loop of lines 65-74: walks the requested amounts zipped with the
opened records; a requested amount above the record's amount is an
`InputsError`; a requested amount below it pushes a change record of the
difference back to the record's owner. -/
def collectChanges :
    List (Nat × OpenAssetRecord) → Except PlatformError (List AssetRecord)
  | [] => .ok []
  | (input_amount, oar) :: rest =>
    if input_amount > oar.get_amount then .error .InputsError
    else if input_amount < oar.get_amount then
      match AssetRecord.new (oar.get_amount - input_amount) oar.get_asset_type
          oar.get_pub_key with
      | .error e => .error e
      | .ok ar =>
        match collectChanges rest with
        | .error e => .error e
        | .ok tail => .ok (ar :: tail)
    else collectChanges rest

/-- One wrapping `u64` addition (release-build overflow semantics; a debug
build would panic instead). -/
def wadd (a b : Nat) : Nat := (a + b) % 2 ^ 64

/-- A wrapping `u64` sum: the fold of wrapping additions from zero, as
`iter().sum::<u64>()` and the `fold(0, |acc, amount| acc + amount)` of the
source compute it. -/
def wsum (l : List Nat) : Nat := l.foldl wadd 0

/-- The chacha PRNG, identified with the seed it was created from: the
external stream cipher is a deterministic function of the seed. -/
structure ChaChaRng where
  seed : List Nat
  deriving DecidableEq, Repr

def ChaChaRng.from_seed (s : List Nat) : ChaChaRng := ⟨s⟩

/-- Model of `AssetTransferBody`: the body built by the external crypto
library is a deterministic function of the PRNG handed to it and of the
arguments, so the model records the PRNG seed together with the arguments. -/
structure AssetTransferBody where
  prng_seed : List Nat
  input_sids : List TxoSID
  input_records : List OpenAssetRecord
  output_records : List AssetRecord
  deriving DecidableEq, Repr

/-- Model of `AssetTransferBody::new`, including its bookkeeping of the
`outputs` counter passed by mutable reference. -/
def AssetTransferBody.new (prng : ChaChaRng) (input_sids : List TxoSID)
    (input_records : List OpenAssetRecord) (output_records : List AssetRecord)
    (outputs : Nat) : AssetTransferBody × Nat :=
  (⟨prng.seed, input_sids, input_records, output_records⟩,
    outputs + output_records.length)

/-- Operations of the legacy transaction type; only the transfer case is
relevant to the claims, the others are collapsed into an opaque tag. -/
inductive Operation where
  | AssetTransfer (body : AssetTransferBody)
  | OtherOp (tag : Nat)
  deriving DecidableEq, Repr

/-- The legacy `Transaction`: a list of operations and an output counter. -/
structure Transaction where
  operations : List Operation := []
  outputs : Nat := 0
  deriving DecidableEq, Repr

def Transaction.add_operation (t : Transaction) (op : Operation) :
    Transaction :=
  { t with operations := t.operations ++ [op] }

/-- The `TransactionBuilder` struct: a transaction plus an output counter. -/
structure TransactionBuilder where
  txn : Transaction := {}
  outputs : Nat := 0
  deriving DecidableEq, Repr

/-- Model of `TransactionBuilder::add_operation_transfer_asset` (lines
134-146). `entropy` is the ambient randomness that would be available to the
call; the source seeds the PRNG with the fixed all-zero 32-byte seed
(`ChaChaRng::from_seed([0u8; 32])`) and never draws from the environment. -/
def add_operation_transfer_asset (entropy : List Nat) (b : TransactionBuilder)
    (input_sids : List TxoSID) (input_records : List OpenAssetRecord)
    (output_records : List AssetRecord) : TransactionBuilder :=
  let _ambient := entropy
  let prng := ChaChaRng.from_seed (List.replicate 32 0)
  let bodyOutputs :=
    AssetTransferBody.new prng input_sids input_records output_records
      b.txn.outputs
  let txn := b.txn.add_operation (Operation.AssetTransfer bodyOutputs.1)
  { b with txn := { txn with outputs := bodyOutputs.2 } }

/-- Outcome of running `add_basic_transfer_asset`: success with the updated
builder, a returned `PlatformError`, or a Rust panic. -/
inductive BasicOutcome where
  | ok (b : TransactionBuilder)
  | err (e : PlatformError)
  | panicked
  deriving DecidableEq, Repr

/-- The construction of the `output_ars` vector (lines 80-86): one record per
`transfer_to` entry, all with the asset type of the first opened input. -/
def outputArs (asset_type : Nat) :
    List (Nat × AccountAddress) → Except PlatformError (List AssetRecord)
  | [] => .ok []
  | p :: rest =>
    match AssetRecord.new p.1 asset_type p.2.key with
    | .error e => .error e
    | .ok ar =>
      match outputArs asset_type rest with
      | .error e => .error e
      | .ok tail => .ok (ar :: tail)

/-- Model of `add_basic_transfer_asset` (lines 42-89). Mirrors the source
order: open every input, run the per-input loop (excess check and change
collection), compare the requested totals — both `u64` sums that wrap on
overflow (lines 63 and 75) — read `input_oars[0]` for the asset type (a
panic when the input list is empty), build one output per `transfer_to`
entry, append the change records, and hand everything to
`add_operation_transfer_asset`. -/
def add_basic_transfer_asset (entropy : List Nat) (b : TransactionBuilder)
    (transfer_from : List TransferFromEntry)
    (transfer_to : List (Nat × AccountAddress)) : BasicOutcome :=
  let input_sids := transfer_from.map (·.txo_sid)
  let input_amounts := transfer_from.map (·.amount)
  match openAll transfer_from with
  | .error e => .err e
  | .ok input_oars =>
    match collectChanges (input_amounts.zip input_oars) with
    | .error e => .err e
    | .ok changeRecords =>
      let input_total := wsum input_amounts
      let output_total := wsum (transfer_to.map Prod.fst)
      if input_total ≠ output_total then .err .InputsError
      else
        match input_oars with
        | [] => .panicked
        | oar0 :: _ =>
          match outputArs oar0.get_asset_type transfer_to with
          | .error e => .err e
          | .ok output_ars =>
            .ok (add_operation_transfer_asset entropy b input_sids input_oars
              (output_ars ++ changeRecords))

/-- The change records described by the loop, as a direct function: one
record per partially consumed input, of the difference, to the opened
record's owner. -/
def changeOutputs (pairs : List (Nat × OpenAssetRecord)) : List AssetRecord :=
  pairs.filterMap (fun p =>
    if p.1 < p.2.amount then
      some ⟨p.2.amount - p.1, p.2.asset_type, p.2.pub_key⟩
    else none)

/-- The property of `add_basic_transfer_asset` for openable inputs `oars`:
an excessive request, or a mismatch of the wrapping `u64` totals, yields
`InputsError`; a success appends exactly one transfer operation whose
outputs are the requested outputs followed by the change records, with the
transparent total of the opened inputs preserved modulo `2 ^ 64` — and
exactly whenever the requested and output totals both fit in a `u64`. -/
def BasicTransferSpec (entropy : List Nat) (b : TransactionBuilder)
    (transfer_from : List TransferFromEntry)
    (transfer_to : List (Nat × AccountAddress))
    (oars : List OpenAssetRecord) : Prop :=
  (((∃ p ∈ (transfer_from.map (·.amount)).zip oars, p.2.amount < p.1) ∨
      wsum (transfer_from.map (·.amount)) ≠
        wsum (transfer_to.map Prod.fst)) →
    add_basic_transfer_asset entropy b transfer_from transfer_to =
      .err .InputsError) ∧
  (∀ b', add_basic_transfer_asset entropy b transfer_from transfer_to =
      .ok b' →
    ∃ oar0 rest, oars = oar0 :: rest ∧
      ∃ body,
        b'.txn.operations =
          b.txn.operations ++ [Operation.AssetTransfer body] ∧
        body.input_records = oars ∧
        body.output_records =
          transfer_to.map
            (fun p => AssetRecord.mk p.1 oar0.asset_type p.2.key) ++
          changeOutputs ((transfer_from.map (·.amount)).zip oars) ∧
        (body.input_records.map (·.amount)).sum % 2 ^ 64 =
          (body.output_records.map (·.amount)).sum % 2 ^ 64 ∧
        ((transfer_from.map (·.amount)).sum < 2 ^ 64 →
          (transfer_to.map Prod.fst).sum < 2 ^ 64 →
          (body.input_records.map (·.amount)).sum =
            (body.output_records.map (·.amount)).sum))

end TxnBuilder

namespace Ledger

abbrev TxoSID := Nat
abbrev ATxoSID := Nat
abbrev TxnSID := Nat
abbrev BlockHeight := Nat
abbrev Amount := Nat

/-- A ledger address wrapping a transparent public key. -/
structure XfrAddress where
  key : Nat
  deriving DecidableEq, Repr

/-- An anonymous address wrapping an anonymous public key. -/
structure AXfrAddress where
  key : Nat
  deriving DecidableEq, Repr

structure IssuerPublicKey where
  key : Nat
  deriving DecidableEq, Repr

structure AssetTypeCode where
  val : Nat
  deriving DecidableEq, Repr

/-- An owner memo; its contents are opaque ciphertext. -/
structure OwnerMemo where
  data : Nat
  deriving DecidableEq, Repr

/-- A blind asset record on the transparent side: the amount and the asset
type are independently either revealed (`some`) or confidential (`none`). -/
structure XfrRecord where
  public_key : Nat
  amount : Option Nat
  asset_type : Option Nat
  deriving DecidableEq, Repr

structure TxOutput where
  record : XfrRecord
  deriving DecidableEq, Repr

structure MintEntry where
  utxo : TxOutput
  deriving DecidableEq, Repr

/-- The transfer note body: input records, output records and the per-output
owner memos. -/
structure XfrBody where
  inputs : List XfrRecord
  outputs : List XfrRecord
  owners_memos : List (Option OwnerMemo)
  deriving DecidableEq, Repr

structure TransferAssetOp where
  input_sids : List TxoSID
  transfer : XfrBody
  deriving DecidableEq, Repr

structure DefineAssetOp where
  pubkey : IssuerPublicKey
  code : AssetTypeCode
  deriving DecidableEq, Repr

structure IssueAssetOp where
  pubkey : IssuerPublicKey
  code : AssetTypeCode
  records : List (TxOutput × Option OwnerMemo)
  deriving DecidableEq, Repr

structure BarToAbarOp where
  input_public_key : Nat
  output_public_key : Nat
  memo : OwnerMemo
  deriving DecidableEq, Repr

structure AbarToBarOp where
  output_public_key : Nat
  deriving DecidableEq, Repr

structure TransferAnonAssetOp where
  output_public_keys : List Nat
  owner_memos : List OwnerMemo
  deriving DecidableEq, Repr

structure ClaimOp where
  claim_pubkey : Nat
  related_pubkeys : List Nat
  deriving DecidableEq, Repr

structure MintFraOp where
  related_pubkeys : List Nat
  height : BlockHeight
  entries : List MintEntry
  deriving DecidableEq, Repr

/-- A delegation body: the keys reported by `get_related_pubkeys`, the bonded
amount and the validator it bonds to. -/
structure DelegationOp where
  related_pubkeys : List Nat
  amount : Nat
  validator : String
  deriving DecidableEq, Repr

/-- The tagged operation variant of a transaction. Staking operations carry
the key set their `get_related_pubkeys` reports (that method lives outside
this slice, so the set is data of the model). -/
inductive Operation where
  | DefineAsset (d : DefineAssetOp)
  | IssueAsset (i : IssueAssetOp)
  | TransferAsset (t : TransferAssetOp)
  | UpdateMemo (pubkey : Nat)
  | BarToAbar (b : BarToAbarOp)
  | AbarToBar (a : AbarToBarOp)
  | TransferAnonAsset (t : TransferAnonAssetOp)
  | UpdateStaker (related_pubkeys : List Nat)
  | Delegation (d : DelegationOp)
  | UnDelegation (related_pubkeys : List Nat)
  | Claim (c : ClaimOp)
  | UpdateValidator (related_pubkeys : List Nat)
  | Governance (related_pubkeys : List Nat)
  | FraDistribution (related_pubkeys : List Nat)
  | MintFra (m : MintFraOp)
  | ConvertAccount (account_pubkey : Nat)
  deriving DecidableEq, Repr

structure TransactionBody where
  operations : List Operation
  deriving DecidableEq, Repr

structure Transaction where
  body : TransactionBody
  deriving DecidableEq, Repr

/-- Model of the external Tendermint-style hash `hash_tm().hex()` of a
transaction: an opaque deterministic digest. Only its determinism (equal
transactions hash equally) is relied on by the cache. -/
def Transaction.hash_tm (t : Transaction) : Nat := t.body.operations.length

/-- The keys inserted into the related-address set for one operation, in the
order the match arms of `get_related_addresses` insert them. -/
def opKeyList : Operation → List Nat
  | .UpdateStaker l => l
  | .Delegation d => d.related_pubkeys
  | .UnDelegation l => l
  | .Claim c => c.related_pubkeys
  | .UpdateValidator l => l
  | .Governance l => l
  | .FraDistribution l => l
  | .MintFra m => m.related_pubkeys
  | .BarToAbar b => [b.input_public_key]
  | .AbarToBar a => [a.output_public_key]
  | .TransferAnonAsset _ => []
  | .ConvertAccount pk => [pk]
  | .TransferAsset t =>
    t.transfer.inputs.map (·.public_key) ++
      t.transfer.outputs.map (·.public_key)
  | .IssueAsset i => [i.pubkey.key]
  | .DefineAsset d => [d.pubkey.key]
  | .UpdateMemo pk => [pk]

/-- Model of `get_related_addresses` (api_cache.rs lines 240-317): walks the
operations, inserting the per-operation keys into a hash set. The `classify`
callback of the source is a side-effect hook that never touches the returned
set; its effects are modelled where they land, in `update_api_cache`. -/
def get_related_addresses (txn : Transaction) : Finset XfrAddress :=
  txn.body.operations.foldl
    (fun s op => (opKeyList op).foldl (fun s k => insert (XfrAddress.mk k) s) s)
    ∅

/-- The per-operation related-key sets exactly as the specification's table
states them (the spec-side definition, to be compared with the code-side
fold). -/
def specRelatedKeys : Operation → Finset XfrAddress
  | .TransferAsset t =>
    (t.transfer.inputs.map (fun r => XfrAddress.mk r.public_key)).toFinset ∪
      (t.transfer.outputs.map (fun r => XfrAddress.mk r.public_key)).toFinset
  | .IssueAsset i => {XfrAddress.mk i.pubkey.key}
  | .DefineAsset d => {XfrAddress.mk d.pubkey.key}
  | .UpdateMemo pk => {XfrAddress.mk pk}
  | .BarToAbar b => {XfrAddress.mk b.input_public_key}
  | .AbarToBar a => {XfrAddress.mk a.output_public_key}
  | .TransferAnonAsset _ => ∅
  | .UpdateStaker l => (l.map XfrAddress.mk).toFinset
  | .Delegation d => (d.related_pubkeys.map XfrAddress.mk).toFinset
  | .UnDelegation l => (l.map XfrAddress.mk).toFinset
  | .Claim c => (c.related_pubkeys.map XfrAddress.mk).toFinset
  | .UpdateValidator l => (l.map XfrAddress.mk).toFinset
  | .Governance l => (l.map XfrAddress.mk).toFinset
  | .FraDistribution l => (l.map XfrAddress.mk).toFinset
  | .MintFra m => (m.related_pubkeys.map XfrAddress.mk).toFinset
  | .ConvertAccount pk => {XfrAddress.mk pk}

/-- The nonconfidential asset codes of transfer inputs, in source order
(model of the collection walked by `get_transferred_nonconfidential_assets`). -/
def transferredAssetList (txn : Transaction) : List AssetTypeCode :=
  txn.body.operations.flatMap (fun op =>
    match op with
    | .TransferAsset t =>
      (t.transfer.inputs.filterMap (·.asset_type)).map AssetTypeCode.mk
    | _ => [])

/-- Model of `get_transferred_nonconfidential_assets` (lines 320-334). -/
def get_transferred_nonconfidential_assets (txn : Transaction) :
    Finset AssetTypeCode :=
  (transferredAssetList txn).toFinset

/-- The per-output owner memos of a transaction, model of
`get_owner_memos_ref` (aligned with the transaction's produced TXOs). -/
def get_owner_memos_ref (t : Transaction) : List (Option OwnerMemo) :=
  t.body.operations.flatMap (fun op =>
    match op with
    | .IssueAsset i => i.records.map (·.2)
    | .TransferAsset tr => tr.transfer.owners_memos
    | .MintFra m => m.entries.map (fun _ => none)
    | _ => [])

/-- The reward detail record of the history channel. -/
structure DelegationRwdDetail where
  block_height : BlockHeight := 0
  amount : Nat := 0
  penalty_amount : Nat := 0
  bond : Nat := 0
  return_rate : Option (Nat × Nat) := none
  commission_rate : Option (Nat × Nat) := none
  global_delegation_percent : Option (Nat × Nat) := none
  deriving DecidableEq, Repr

/-- The merge performed by `cache_hist_data` on an existing reward-detail
entry: heights are overwritten, amounts accumulate, and the optional fields
are overwritten only when the incoming record carries them. -/
def mergeRwd (dd r : DelegationRwdDetail) : DelegationRwdDetail :=
  { dd with
    block_height := r.block_height
    amount := dd.amount + r.amount
    penalty_amount := dd.penalty_amount + r.penalty_amount
    bond := if 0 < r.bond then r.bond else dd.bond
    return_rate :=
      if r.return_rate.isSome then r.return_rate else dd.return_rate
    commission_rate :=
      if r.commission_rate.isSome then r.commission_rate
      else dd.commission_rate
    global_delegation_percent :=
      if r.global_delegation_percent.isSome then r.global_delegation_percent
      else dd.global_delegation_percent }

/-- The four in-memory staking history channels, holding the tuples pushed by
the staking engine and not yet drained into the cache. -/
structure HistChans where
  glob_rate : List (BlockHeight × (Nat × Nat)) := []
  self_d : List (Nat × BlockHeight × Amount) := []
  d_amount : List (Nat × BlockHeight × Amount) := []
  rwd : List (Nat × BlockHeight × DelegationRwdDetail) := []
  deriving DecidableEq, Repr

/-- Pointwise map update (the persistent maps of the cache, viewed through
their lookup function). -/
def upd1 {K V : Type} [DecidableEq K] (m : K → V) (k : K) (v : V) : K → V :=
  fun q => if q = k then v else m q

/-- A sequence of inserts, in order. -/
def updAll {K V : Type} [DecidableEq K] (ps : List (K × V)) (m : K → V) :
    K → V :=
  ps.foldl (fun m p => upd1 m p.1 p.2) m

/-- A sequence of list extensions: `entry(k).or_insert_with(Vec::new)`
followed by `extend_from_slice`, in order. -/
def appAll {K V : Type} [DecidableEq K] (ps : List (K × List V))
    (m : K → List V) : K → List V :=
  ps.foldl (fun m p => upd1 m p.1 (m p.1 ++ p.2)) m

/-- The API cache, each persistent map viewed through its lookup function
(the nested per-key sub-maps of the source are flattened to product keys; the
sub-map naming by base64 fingerprints only affects on-disk layout). The
`prefix` field of the source is called `pfx` here. -/
structure ApiCache where
  pfx : String
  related_transactions : XfrAddress × TxnSID → Bool
  related_transfers : AssetTypeCode × TxnSID → Bool
  claim_hist_txns : XfrAddress × TxnSID → Bool
  coinbase_oper_hist : XfrAddress × BlockHeight → Option MintEntry
  created_assets : IssuerPublicKey × AssetTypeCode → Option DefineAssetOp
  issuances : IssuerPublicKey → List (TxOutput × Option OwnerMemo)
  token_code_issuances : AssetTypeCode → List (TxOutput × Option OwnerMemo)
  owner_memos : TxoSID → Option OwnerMemo
  abar_memos : ATxoSID → Option OwnerMemo
  utxos_to_map_index : TxoSID → Option XfrAddress
  atxos_to_map_index : ATxoSID → Option AXfrAddress
  txo_to_txnid : TxoSID → Option (TxnSID × Nat)
  atxo_to_txnid : ATxoSID → Option (TxnSID × Nat)
  txn_sid_to_hash : TxnSID → Option Nat
  txn_hash_to_sid : Nat → Option TxnSID
  staking_global_rate_hist : BlockHeight → Option (Nat × Nat)
  staking_self_delegation_hist : Nat × BlockHeight → Option Amount
  staking_delegation_amount_hist : Nat × BlockHeight → Option Amount
  staking_delegation_rwd_hist : Nat × BlockHeight → Option DelegationRwdDetail

/-- Model of `ApiCache::cache_hist_data`: drain the four channels into the
corresponding history maps; reward details merge into any existing entry. -/
def cache_hist_data (c : ApiCache) (ch : HistChans) : ApiCache :=
  let c1 := { c with
    staking_global_rate_hist :=
      ch.glob_rate.foldl
        (fun m (p : BlockHeight × (Nat × Nat)) => upd1 m p.1 (some p.2))
        c.staking_global_rate_hist }
  let c2 := { c1 with
    staking_self_delegation_hist :=
      ch.self_d.foldl
        (fun m (t : Nat × BlockHeight × Amount) =>
          upd1 m (t.1, t.2.1) (some t.2.2))
        c1.staking_self_delegation_hist }
  let c3 := { c2 with
    staking_delegation_amount_hist :=
      ch.d_amount.foldl
        (fun m (t : Nat × BlockHeight × Amount) =>
          upd1 m (t.1, t.2.1) (some t.2.2))
        c2.staking_delegation_amount_hist }
  { c3 with
    staking_delegation_rwd_hist :=
      ch.rwd.foldl
        (fun m (t : Nat × BlockHeight × DelegationRwdDetail) =>
          upd1 m (t.1, t.2.1)
            (some (mergeRwd ((m (t.1, t.2.1)).getD {}) t.2.2)))
        c3.staking_delegation_rwd_hist }

/-- A transaction as recorded in a finalized block: its assigned `TxnSID`,
the produced TXO and ATXO sids, and the transaction itself (the result the
source fetches back through `get_transaction_light`). -/
structure FinalizedTxn where
  tx_id : TxnSID
  txo_ids : List TxoSID
  atxo_ids : List ATxoSID
  txn : Transaction
  deriving DecidableEq, Repr

structure Block where
  txns : List FinalizedTxn
  deriving DecidableEq, Repr

/-- The ledger state seen by `update_api_cache`: the committed blocks, the
UTXO record lookup (`get_utxo_light` falling back to `get_spent_utxo_light`,
total because the cache is updated only for sids the block just produced),
the cache and the pending history channels. -/
structure LedgerState where
  blocks : List Block
  utxo_owner : TxoSID → XfrRecord
  api_cache : ApiCache
  chans : HistChans

/-- The claim-history inserts of the `classify_op` callback for one finalized
transaction, in operation order. -/
def claimPairs (ft : FinalizedTxn) : List ((XfrAddress × TxnSID) × Bool) :=
  ft.txn.body.operations.filterMap (fun op =>
    match op with
    | .Claim c => some ((XfrAddress.mk c.claim_pubkey, ft.tx_id), true)
    | _ => none)

/-- The coinbase-history inserts of the `classify_op` callback for one
finalized transaction. -/
def coinbasePairs (ft : FinalizedTxn) :
    List ((XfrAddress × BlockHeight) × Option MintEntry) :=
  ft.txn.body.operations.flatMap (fun op =>
    match op with
    | .MintFra m =>
      m.entries.map (fun me =>
        ((XfrAddress.mk me.utxo.record.public_key, m.height), some me))
    | _ => [])

/-- The related keys of a transaction as an ordered list (the hash set of
`get_related_addresses` enumerated in operation order; iteration order of the
hash set is unspecified in the source and immaterial to the final maps). -/
def relatedKeyList (txn : Transaction) : List Nat :=
  txn.body.operations.flatMap opKeyList

def relatedPairs (ft : FinalizedTxn) : List ((XfrAddress × TxnSID) × Bool) :=
  (relatedKeyList ft.txn).map (fun k => ((XfrAddress.mk k, ft.tx_id), true))

def transferPairs (ft : FinalizedTxn) :
    List ((AssetTypeCode × TxnSID) × Bool) :=
  (transferredAssetList ft.txn).map (fun a => ((a, ft.tx_id), true))

def createdPairs (ft : FinalizedTxn) :
    List ((IssuerPublicKey × AssetTypeCode) × Option DefineAssetOp) :=
  ft.txn.body.operations.filterMap (fun op =>
    match op with
    | .DefineAsset d => some ((d.pubkey, d.code), some d)
    | _ => none)

def issuancePairs (ft : FinalizedTxn) :
    List (IssuerPublicKey × List (TxOutput × Option OwnerMemo)) :=
  ft.txn.body.operations.filterMap (fun op =>
    match op with
    | .IssueAsset i => some (i.pubkey, i.records)
    | _ => none)

def tokenIssuancePairs (ft : FinalizedTxn) :
    List (AssetTypeCode × List (TxOutput × Option OwnerMemo)) :=
  ft.txn.body.operations.filterMap (fun op =>
    match op with
    | .IssueAsset i => some (i.code, i.records)
    | _ => none)

def utxoAddrPairs (L : LedgerState) (ft : FinalizedTxn) :
    List (TxoSID × Option XfrAddress) :=
  ft.txo_ids.map (fun sid =>
    (sid, some (XfrAddress.mk (L.utxo_owner sid).public_key)))

def txoTxnidPairs (ft : FinalizedTxn) :
    List (TxoSID × Option (TxnSID × Nat)) :=
  ft.txo_ids.map (fun sid => (sid, some (ft.tx_id, ft.txn.hash_tm)))

def sidHashPairs (ft : FinalizedTxn) : List (TxnSID × Option Nat) :=
  ft.txo_ids.map (fun _ => (ft.tx_id, some ft.txn.hash_tm))

def hashSidPairs (ft : FinalizedTxn) : List (Nat × Option TxnSID) :=
  ft.txo_ids.map (fun _ => (ft.txn.hash_tm, some ft.tx_id))

def ownerMemoPairs (ft : FinalizedTxn) :
    List (TxoSID × Option OwnerMemo) :=
  (ft.txo_ids.zip (get_owner_memos_ref ft.txn)).filterMap (fun p =>
    p.2.map (fun m => (p.1, some m)))

/-- The `conv_memos.chain(abar_memos)` iterator: bar-to-abar output keys and
memos first, then the anonymous transfer outputs zipped with their memos. -/
def convAbarMemoList (txn : Transaction) : List (Nat × OwnerMemo) :=
  txn.body.operations.filterMap (fun op =>
    match op with
    | .BarToAbar b => some (b.output_public_key, b.memo)
    | _ => none) ++
  txn.body.operations.flatMap (fun op =>
    match op with
    | .TransferAnonAsset t => t.output_public_keys.zip t.owner_memos
    | _ => [])

def atxoZip (ft : FinalizedTxn) : List ((Nat × OwnerMemo) × ATxoSID) :=
  (convAbarMemoList ft.txn).zip ft.atxo_ids

def atxoAddrPairs (ft : FinalizedTxn) :
    List (ATxoSID × Option AXfrAddress) :=
  (atxoZip ft).map (fun p => (p.2, some (AXfrAddress.mk p.1.1)))

def abarMemoPairs (ft : FinalizedTxn) :
    List (ATxoSID × Option OwnerMemo) :=
  (atxoZip ft).map (fun p => (p.2, some p.1.2))

def atxoTxnidPairs (ft : FinalizedTxn) :
    List (ATxoSID × Option (TxnSID × Nat)) :=
  (atxoZip ft).map (fun p => (p.2, some (ft.tx_id, ft.txn.hash_tm)))

/-- One iteration of the per-transaction loop of `update_api_cache` (lines
353-569): every map receives the inserts computed from the ledger and the
finalized transaction alone; the issuance lists are extended. -/
def apply_txn (L : LedgerState) (c : ApiCache) (ft : FinalizedTxn) :
    ApiCache :=
  { c with
    claim_hist_txns := updAll (claimPairs ft) c.claim_hist_txns
    coinbase_oper_hist := updAll (coinbasePairs ft) c.coinbase_oper_hist
    related_transactions := updAll (relatedPairs ft) c.related_transactions
    related_transfers := updAll (transferPairs ft) c.related_transfers
    created_assets := updAll (createdPairs ft) c.created_assets
    issuances := appAll (issuancePairs ft) c.issuances
    token_code_issuances :=
      appAll (tokenIssuancePairs ft) c.token_code_issuances
    utxos_to_map_index := updAll (utxoAddrPairs L ft) c.utxos_to_map_index
    txo_to_txnid := updAll (txoTxnidPairs ft) c.txo_to_txnid
    txn_sid_to_hash := updAll (sidHashPairs ft) c.txn_sid_to_hash
    txn_hash_to_sid := updAll (hashSidPairs ft) c.txn_hash_to_sid
    owner_memos := updAll (ownerMemoPairs ft) c.owner_memos
    atxos_to_map_index := updAll (atxoAddrPairs ft) c.atxos_to_map_index
    abar_memos := updAll (abarMemoPairs ft) c.abar_memos
    atxo_to_txnid := updAll (atxoTxnidPairs ft) c.atxo_to_txnid }

/-- Model of `update_api_cache` (lines 337-572): a no-op unless `KEEP_HIST`
is set; otherwise drain the history channels, then walk the transactions of
the last committed block (if any), updating every index. -/
def update_api_cache (keep_hist : Bool) (L : LedgerState) : LedgerState :=
  match keep_hist with
  | false => L
  | true =>
    match L.blocks.getLast? with
    | none =>
      { L with api_cache := cache_hist_data L.api_cache L.chans, chans := {} }
    | some block =>
      { L with
        api_cache :=
          block.txns.foldl (apply_txn L) (cache_hist_data L.api_cache L.chans)
        chans := {} }

end Ledger

namespace Ledger

/-- Failures of the transaction-effect computation listed by the spec; the
model carries the one decidable from the transaction alone. -/
inductive TxnEffectError where
  | DuplicateInputWithinTxn
  deriving DecidableEq, Repr

/-- The deltas a transaction intends, as far as this model tracks them. -/
structure TxnEffect where
  consumed_txos : List TxoSID
  deriving DecidableEq, Repr

/-- The TxoSIDs a transaction consumes. -/
def Transaction.consumedSids (tx : Transaction) : List TxoSID :=
  tx.body.operations.flatMap (fun op =>
    match op with
    | .TransferAsset t => t.input_sids
    | _ => [])

/-- Modelled from the spec: `TxnEffect::compute_effect` (§4.1) — the ledger
crate's pure validation is outside this slice; per the spec it computes the
set of consumed TxoSIDs, touches no committed state, and fails with (among
others) `DuplicateInputWithinTxn`. The model performs the duplicate-input
check, the one spec-listed failure decidable from the transaction alone
here, and consumes one PRNG draw. -/
def compute_effect (prng : Nat) (tx : Transaction) :
    Except TxnEffectError TxnEffect × Nat :=
  if tx.consumedSids.Nodup then (.ok ⟨tx.consumedSids⟩, prng + 1)
  else (.error .DuplicateInputWithinTxn, prng + 1)

end Ledger

namespace Submission

/-- The transaction handle: an opaque string issued at submission time. -/
structure TxnHandle where
  val : String
  deriving DecidableEq, Repr

/-- Modelled from the spec: the canonical serialization of a transaction, as
a stable string; the handle derivation only needs its determinism. -/
def canonical_serialization (t : Ledger.Transaction) : String :=
  toString t.hash_tm

inductive TxnStatus where
  | Pending
  | Committed (sid : Ledger.TxnSID) (txos : List Ledger.TxoSID)
  | Rejected (reason : String)
  deriving DecidableEq, Repr

/-- A platform error of the current generation: carries a display message. -/
structure SubError where
  msg : String
  deriving DecidableEq, Repr

/-- The submission server: the block under construction, the status map, the
block capacity, the PRNG and the next transaction sid. -/
structure SubmissionServerState where
  block : List Ledger.Transaction
  txn_status : TxnHandle → Option TxnStatus
  block_capacity : Nat
  prng : Nat
  next_txn_sid : Ledger.TxnSID

/-- Modelled from the spec: `SubmissionServer::handle_transaction` (§4.5) —
runs TxnEffect against the current committed snapshot; on success inserts the
transaction into the current block and records `Pending` under the handle (a
stable string derived from the canonical serialization). Failures are local
and leave the server untouched; submissions beyond the block capacity are
rejected (§6.4 backpressure). -/
def handle_transaction (s : SubmissionServerState) (tx : Ledger.Transaction) :
    Except SubError (TxnHandle × SubmissionServerState) :=
  let r := Ledger.compute_effect s.prng tx
  match r.1 with
  | .error _ => .error ⟨"Check failed"⟩
  | .ok _ =>
    if s.block_capacity ≤ s.block.length then .error ⟨"Block is full"⟩
    else
      let h : TxnHandle := ⟨canonical_serialization tx⟩
      .ok (h, { s with
        prng := r.2
        block := s.block ++ [tx]
        txn_status := Ledger.upd1 s.txn_status h (some TxnStatus.Pending) })

/-- Body of an HTTP response at this layer: either the JSON rendering of a
handle or plain text. -/
inductive HttpBody where
  | json_handle (h : TxnHandle)
  | text (s : String)
  deriving DecidableEq, Repr

structure HttpResponse where
  status : Nat
  body : HttpBody
  deriving DecidableEq, Repr

/-- Model of the `submit_transaction` route handler (submission_api.rs lines
33-52): on success status 200 with the handle as JSON and the updated
server; on failure `ErrorBadRequest(format!("{}", e))`, i.e. status 400 with
exactly the error's display message, the server untouched. -/
def submit_transaction (s : SubmissionServerState) (tx : Ledger.Transaction) :
    HttpResponse × SubmissionServerState :=
  match handle_transaction s tx with
  | .ok hs => ({ status := 200, body := .json_handle hs.1 }, hs.2)
  | .error e => ({ status := 400, body := .text e.msg }, s)

/-- Modelled from the spec: `SubmissionServer::end_block` (§4.5) — finalise
the block, assigning TxnSIDs in block order and transitioning the pending
handles to `Committed`; with no transaction pending it returns an error (the
branch `force_end_block` reports as "No pending transactions to commit"). -/
def ss_end_block (s : SubmissionServerState) :
    Except SubError SubmissionServerState :=
  if s.block.isEmpty then .error ⟨"No pending transactions to commit"⟩
  else
    .ok { s with
      block := []
      next_txn_sid := s.next_txn_sid + s.block.length
      txn_status :=
        s.block.enum.foldl
          (fun m (p : Nat × Ledger.Transaction) =>
            Ledger.upd1 m ⟨canonical_serialization p.2⟩
              (some (TxnStatus.Committed (s.next_txn_sid + p.1) [])))
          s.txn_status }

end Submission

namespace Abci

/-- The check response; `ResponseCheckTx::new()` defaults to code 0 and an
empty log. -/
structure ResponseCheckTx where
  code : Nat := 0
  log : String := ""
  deriving DecidableEq, Repr

inductive LockKind where
  | read
  | write
  deriving DecidableEq, Repr

/-- Request bytes as seen through the deserializer: either a well-formed
encoding of a transaction or bytes that do not unpack. -/
inductive TxMsg where
  | bytes_of (t : Ledger.Transaction)
  | garbage
  deriving DecidableEq, Repr

/-- Model of `convert_tx`. -/
def convert_tx : TxMsg → Option Ledger.Transaction
  | .bytes_of t => some t
  | .garbage => none

/-- The state behind `get_committed_state`: the committed ledger data,
grouped apart from the PRNG that `get_prng` hands out (the PRNG is not part
of the committed data). -/
structure LedgerStateWithPrng where
  committed : Ledger.LedgerState
  prng : Nat

/-- Model of the `check_tx` callback (abci_validator_node.rs lines 26-46):
unpack the bytes, then validate under the lock acquired by
`self.la.get_committed_state().write()`. Returns the response, the state
behind the lock after the call, and which lock was acquired (`none` when
deserialization already failed, before any lock is taken). -/
def check_tx (la : LedgerStateWithPrng) (req : TxMsg) :
    ResponseCheckTx × LedgerStateWithPrng × Option LockKind :=
  match convert_tx req with
  | some tx =>
    let r := Ledger.compute_effect la.prng tx
    match r.1 with
    | .error _ =>
      ({ code := 1, log := "Check failed" }, { la with prng := r.2 },
        some LockKind.write)
    | .ok _ => ({}, { la with prng := r.2 }, some LockKind.write)
  | none => ({ code := 1, log := "Could not unpack transaction" }, la, none)

/-- Boolean success of an `Except`. -/
def isOkB {ε α : Type} : Except ε α → Bool
  | .ok _ => true
  | .error _ => false

/-- The behaviour claimed of `check_tx`, corrected on the lock kind: the
committed data is untouched; undecodable bytes give code 1 with log "Could
not unpack transaction" (before any lock is taken); otherwise the callback
acquires the write lock and answers code 1 "Check failed" when the effect
computation fails and the fresh code-0 response when it succeeds. -/
def CheckTxSpec (la : LedgerStateWithPrng) (req : TxMsg) : Prop :=
  (check_tx la req).2.1.committed = la.committed ∧
  (convert_tx req = none →
    (check_tx la req).1 =
        { code := 1, log := "Could not unpack transaction" } ∧
      (check_tx la req).2.1 = la ∧ (check_tx la req).2.2 = none) ∧
  (∀ tx, convert_tx req = some tx →
    (check_tx la req).2.2 = some LockKind.write ∧
    (isOkB (Ledger.compute_effect la.prng tx).1 = false →
      (check_tx la req).1 = { code := 1, log := "Check failed" }) ∧
    (isOkB (Ledger.compute_effect la.prng tx).1 = true →
      (check_tx la req).1 = {}))

/-- Outcome of the consensus `end_block` callback: a normal return with the
new server state, or a process panic. -/
inductive EndBlockOutcome where
  | normal (s : Submission.SubmissionServerState)
  | panicked

/-- Model of the `end_block` callback (abci_validator_node.rs lines 65-69):
`self.la.end_block().unwrap()` — an error from the submission server's
`end_block` is a process panic, not an error response. -/
def end_block (s : Submission.SubmissionServerState) : EndBlockOutcome :=
  match Submission.ss_end_block s with
  | .ok sNew => .normal sNew
  | .error _ => .panicked

end Abci

namespace FinUtils

/-- Modelled from the spec: the staking sink address
`BLACK_HOLE_PUBKEY_STAKING`, a constant external to the slice; only its
identity matters. -/
def BLACK_HOLE_PUBKEY_STAKING : Nat := 424242

/-- Modelled from the spec: the native asset type (FRA) paid by delegation
principal transfers. -/
def ASSET_TYPE_FRA : Nat := 0

inductive AssetRecordType where
  | NonConfidentialAmount_NonConfidentialAssetType
  | ConfidentialAmount_NonConfidentialAssetType
  | NonConfidentialAmount_ConfidentialAssetType
  | ConfidentialAmount_ConfidentialAssetType
  deriving DecidableEq, Repr

def AssetRecordType.amountVisible : AssetRecordType → Bool
  | .NonConfidentialAmount_NonConfidentialAssetType => true
  | .NonConfidentialAmount_ConfidentialAssetType => true
  | _ => false

def AssetRecordType.assetTypeVisible : AssetRecordType → Bool
  | .NonConfidentialAmount_NonConfidentialAssetType => true
  | .ConfidentialAmount_NonConfidentialAssetType => true
  | _ => false

structure XfrKeyPair where
  pub_key : Nat
  deriving DecidableEq, Repr

structure TransactionBuilder where
  ops : List Ledger.Operation
  deriving DecidableEq, Repr

/-- Modelled from the spec: `utils::new_tx_builder` — a fresh builder at the
current sequence id. -/
def new_tx_builder : TransactionBuilder := ⟨[]⟩

def TransactionBuilder.add_operation (b : TransactionBuilder)
    (op : Ledger.Operation) : TransactionBuilder :=
  ⟨b.ops ++ [op]⟩

def TransactionBuilder.take_transaction (b : TransactionBuilder) :
    Ledger.Transaction := ⟨⟨b.ops⟩⟩

/-- Modelled from the spec: rendering of a tendermint public key as the
validator address string. -/
def td_pubkey_to_td_addr (td_pubkey : Nat) : String := toString td_pubkey

/-- Modelled from the spec: `add_operation_staking` — the self-delegation
operation of a `stake` transaction, bonding `am` from the staker to its own
validator node. -/
def TransactionBuilder.add_operation_staking (b : TransactionBuilder)
    (kp : XfrKeyPair) (am : Nat) (_vkp : Nat) (td_pubkey : Nat)
    (_cr : Nat × Nat) (_memo : Option String) : TransactionBuilder :=
  b.add_operation (Ledger.Operation.Delegation
    ⟨[kp.pub_key], am, td_pubkey_to_td_addr td_pubkey⟩)

/-- Modelled from the spec: `add_operation_delegation` — bonds `am` from the
owner key to the named validator. -/
def TransactionBuilder.add_operation_delegation (b : TransactionBuilder)
    (kp : XfrKeyPair) (am : Nat) (validator : String) : TransactionBuilder :=
  b.add_operation (Ledger.Operation.Delegation ⟨[kp.pub_key], am, validator⟩)

/-- Modelled from the spec: `utils::gen_transfer_op` — a transparent
transfer operation paying each listed target its amount, where the requested
record type decides which of amount and asset type are revealed on the
outputs. -/
def gen_transfer_op (kp : XfrKeyPair) (targets : List (Nat × Nat))
    (art : AssetRecordType) : Except String Ledger.Operation :=
  .ok (Ledger.Operation.TransferAsset
    { input_sids := []
      transfer :=
        { inputs := [⟨kp.pub_key, some (targets.map Prod.snd).sum,
            some ASSET_TYPE_FRA⟩]
          outputs := targets.map (fun p =>
            ⟨p.1, if art.amountVisible then some p.2 else none,
              if art.assetTypeVisible then some ASSET_TYPE_FRA else none⟩)
          owners_memos := [] } })

/-- The transaction built by `stake` (mod.rs lines 148-163), once the key
material is at hand and the height check has passed: the staking operation,
then the transparent principal transfer to the staking sink. -/
def stake_tx (kp : XfrKeyPair) (vkp : Nat) (td_pubkey : Nat) (am : Nat)
    (cr : Nat × Nat) (memo : Option String) :
    Except String Ledger.Transaction := do
  let b := new_tx_builder
  let b := b.add_operation_staking kp am vkp td_pubkey cr memo
  let principal_op ← gen_transfer_op kp [(BLACK_HOLE_PUBKEY_STAKING, am)]
    AssetRecordType.NonConfidentialAmount_NonConfidentialAssetType
  let b := b.add_operation principal_op
  return b.take_transaction

/-- The transaction built by `stake_append` (mod.rs lines 186-199): the
delegation operation, then the principal transfer to the staking sink. -/
def stake_append_tx (kp : XfrKeyPair) (am : Nat) (td_addr : String) :
    Except String Ledger.Transaction := do
  let b := new_tx_builder
  let b := b.add_operation_delegation kp am td_addr
  let principal_op ← gen_transfer_op kp [(BLACK_HOLE_PUBKEY_STAKING, am)]
    AssetRecordType.NonConfidentialAmount_NonConfidentialAssetType
  let b := b.add_operation principal_op
  return b.take_transaction

/-- Model of `gen_delegate_tx` (mod.rs lines 665-687): the principal
transfer to the staking sink first, then the delegation operation. -/
def gen_delegate_tx (kp : XfrKeyPair) (amount : Nat) (validator : String) :
    Except String Ledger.Transaction := do
  let b := new_tx_builder
  let principal_op ← gen_transfer_op kp [(BLACK_HOLE_PUBKEY_STAKING, amount)]
    AssetRecordType.NonConfidentialAmount_NonConfidentialAssetType
  let b := b.add_operation principal_op
  let b := b.add_operation_delegation kp amount validator
  return b.take_transaction

/-- Model of `convert_commission_rate` (mod.rs lines 542-550). The `f64`
input is modelled by the rational number it denotes; the Rust `as u64` cast
truncates toward zero, which on the non-negative branch equals the floor. -/
def convert_commission_rate (cr : ℚ) : Except String (Nat × Nat) :=
  if 1 < cr then .error "commission rate can exceed 100%"
  else if 0 > cr then
    .error "commission rate must be a positive float number"
  else .ok ((⌊cr * 10000⌋).toNat, 10000)

/-- The transaction carries a delegation operation bonding `am`. -/
def hasDelegationOf (tx : Ledger.Transaction) (am : Nat) : Prop :=
  ∃ d, Ledger.Operation.Delegation d ∈ tx.body.operations ∧ d.amount = am

/-- The transaction carries a transparent transfer with an output paying
`am` to the staking sink, amount and asset type both revealed. -/
def paysToStakingSink (tx : Ledger.Transaction) (am : Nat) : Prop :=
  ∃ t, Ledger.Operation.TransferAsset t ∈ tx.body.operations ∧
    (⟨BLACK_HOLE_PUBKEY_STAKING, some am, some ASSET_TYPE_FRA⟩ :
      Ledger.XfrRecord) ∈ t.transfer.outputs

end FinUtils

namespace TxnBuilder

/-- A fresh builder. -/
def tb0 : TransactionBuilder := {}

/-- A concrete one-input transfer: an openable record of 10 units of asset 3
owned by key 77; 6 units requested. -/
def tf1 : List TransferFromEntry := [⟨1, some ⟨10, 3, 77⟩, 6, ⟨77⟩, 0⟩]

/-- One output of 6 units to key 88. -/
def to1 : List (Nat × AccountAddress) := [(6, ⟨88⟩)]

/-- The opened records of `tf1`. -/
def oars1 : List OpenAssetRecord := [⟨10, 3, 77⟩]

/-- Two openable inputs, each requesting its full record of `2 ^ 63` units:
the requested total is `2 ^ 64`, which a wrapping `u64` sum folds to 0. -/
def tfBig : List TransferFromEntry :=
  [⟨1, some ⟨2 ^ 63, 3, 77⟩, 2 ^ 63, ⟨77⟩, 0⟩,
    ⟨2, some ⟨2 ^ 63, 3, 78⟩, 2 ^ 63, ⟨78⟩, 0⟩]

/-- The opened records of `tfBig`. -/
def oarsBig : List OpenAssetRecord := [⟨2 ^ 63, 3, 77⟩, ⟨2 ^ 63, 3, 78⟩]

/-- The builder produced by `add_basic_transfer_asset` on `tfBig` with no
outputs: one transfer consuming both records and producing nothing. -/
def bigResult : TransactionBuilder :=
  { txn :=
      { operations :=
          [Operation.AssetTransfer
            ⟨List.replicate 32 0, [1, 2], oarsBig, []⟩]
        outputs := 0 }
    outputs := 0 }

end TxnBuilder

namespace Ledger

/-- The all-empty cache. -/
def emptyCache : ApiCache where
  pfx := ""
  related_transactions := fun _ => false
  related_transfers := fun _ => false
  claim_hist_txns := fun _ => false
  coinbase_oper_hist := fun _ => none
  created_assets := fun _ => none
  issuances := fun _ => []
  token_code_issuances := fun _ => []
  owner_memos := fun _ => none
  abar_memos := fun _ => none
  utxos_to_map_index := fun _ => none
  atxos_to_map_index := fun _ => none
  txo_to_txnid := fun _ => none
  atxo_to_txnid := fun _ => none
  txn_sid_to_hash := fun _ => none
  txn_hash_to_sid := fun _ => none
  staking_global_rate_hist := fun _ => none
  staking_self_delegation_hist := fun _ => none
  staking_delegation_amount_hist := fun _ => none
  staking_delegation_rwd_hist := fun _ => none

/-- A transaction issuing one record of asset 5 by issuer 7. -/
def issueTxn : Transaction :=
  ⟨⟨[Operation.IssueAsset ⟨⟨7⟩, ⟨5⟩, [(⟨⟨1, some 2, some 5⟩⟩, none)]⟩]⟩⟩

def issueFt : FinalizedTxn := ⟨0, [], [], issueTxn⟩

/-- A ledger whose last committed block contains exactly `issueTxn`, with an
empty cache and drained channels. -/
def issueLedger : LedgerState :=
  ⟨[⟨[issueFt]⟩], fun _ => ⟨0, none, none⟩, emptyCache, {}⟩

/-- A transaction with no operations. -/
def txEmpty : Transaction := ⟨⟨[]⟩⟩

/-- A transaction whose transfer consumes TxoSID 1 twice. -/
def txDup : Transaction :=
  ⟨⟨[Operation.TransferAsset ⟨[1, 1], ⟨[], [], []⟩⟩]⟩⟩

/-- The transactions of the last committed block. -/
def txnsOf (L : LedgerState) : List FinalizedTxn :=
  match L.blocks.getLast? with
  | none => []
  | some b => b.txns

/-- The per-issuer issuance extensions contributed by the last committed
block, in transaction order. -/
def blockIssuanceAll (L : LedgerState) :
    List (IssuerPublicKey × List (TxOutput × Option OwnerMemo)) :=
  (txnsOf L).flatMap issuancePairs

/-- The per-asset issuance extensions contributed by the last committed
block, in transaction order. -/
def blockTokenIssuanceAll (L : LedgerState) :
    List (AssetTypeCode × List (TxOutput × Option OwnerMemo)) :=
  (txnsOf L).flatMap tokenIssuancePairs

/-- What re-applying the same committed block actually does to the cache:
every index except the two issuance lists is left in the same state, while
each issuance list receives the block's issuance records appended once
more. -/
def ReapplySpec (L : LedgerState) : Prop :=
  let L1 := update_api_cache true L
  let L2 := update_api_cache true L1
  L2.blocks = L1.blocks ∧
  L2.chans = L1.chans ∧
  L2.api_cache.pfx = L1.api_cache.pfx ∧
  L2.api_cache.related_transactions = L1.api_cache.related_transactions ∧
  L2.api_cache.related_transfers = L1.api_cache.related_transfers ∧
  L2.api_cache.claim_hist_txns = L1.api_cache.claim_hist_txns ∧
  L2.api_cache.coinbase_oper_hist = L1.api_cache.coinbase_oper_hist ∧
  L2.api_cache.created_assets = L1.api_cache.created_assets ∧
  L2.api_cache.owner_memos = L1.api_cache.owner_memos ∧
  L2.api_cache.abar_memos = L1.api_cache.abar_memos ∧
  L2.api_cache.utxos_to_map_index = L1.api_cache.utxos_to_map_index ∧
  L2.api_cache.atxos_to_map_index = L1.api_cache.atxos_to_map_index ∧
  L2.api_cache.txo_to_txnid = L1.api_cache.txo_to_txnid ∧
  L2.api_cache.atxo_to_txnid = L1.api_cache.atxo_to_txnid ∧
  L2.api_cache.txn_sid_to_hash = L1.api_cache.txn_sid_to_hash ∧
  L2.api_cache.txn_hash_to_sid = L1.api_cache.txn_hash_to_sid ∧
  L2.api_cache.staking_global_rate_hist =
    L1.api_cache.staking_global_rate_hist ∧
  L2.api_cache.staking_self_delegation_hist =
    L1.api_cache.staking_self_delegation_hist ∧
  L2.api_cache.staking_delegation_amount_hist =
    L1.api_cache.staking_delegation_amount_hist ∧
  L2.api_cache.staking_delegation_rwd_hist =
    L1.api_cache.staking_delegation_rwd_hist ∧
  L2.api_cache.issuances =
    appAll (blockIssuanceAll L) L1.api_cache.issuances ∧
  L2.api_cache.token_code_issuances =
    appAll (blockTokenIssuanceAll L) L1.api_cache.token_code_issuances

end Ledger

namespace Abci

/-- A concrete ledger-with-prng for exercising `check_tx`. -/
def la0 : LedgerStateWithPrng := ⟨Ledger.issueLedger, 0⟩

end Abci

namespace Submission

/-- A fresh submission server: empty block, no statuses, capacity 8. -/
def sub0 : SubmissionServerState := ⟨[], fun _ => none, 8, 0, 0⟩

/-- A server with one pending transaction in the block. -/
def sub1 : SubmissionServerState := ⟨[Ledger.txEmpty], fun _ => none, 8, 0, 0⟩

/-- The handle `handle_transaction` issues for `txEmpty`. -/
def handle0 : TxnHandle := ⟨canonical_serialization Ledger.txEmpty⟩

/-- The server after `sub0` accepts `txEmpty`. -/
def subOk : SubmissionServerState :=
  ⟨[Ledger.txEmpty],
    Ledger.upd1 (fun _ => none) handle0 (some TxnStatus.Pending), 8, 1, 0⟩

/-- The server after `sub1` ends its block. -/
def sub1Committed : SubmissionServerState :=
  ⟨[], Ledger.upd1 (fun _ => none) handle0 (some (TxnStatus.Committed 0 [])),
    8, 0, 1⟩

end Submission

/-! ### Helper lemmas for the legacy transaction builder -/

theorem getters_eq (o : TxnBuilder.OpenAssetRecord) :
    o.get_amount = o.amount ∧ o.get_asset_type = o.asset_type ∧
      o.get_pub_key = o.pub_key :=
  ⟨rfl, rfl, rfl⟩

theorem collectChanges_cons (a : Nat) (o : TxnBuilder.OpenAssetRecord)
    (rest : List (Nat × TxnBuilder.OpenAssetRecord)) :
    TxnBuilder.collectChanges ((a, o) :: rest) =
      if a > o.amount then .error TxnBuilder.PlatformError.InputsError
      else if a < o.amount then
        match TxnBuilder.collectChanges rest with
        | .error e => .error e
        | .ok tail =>
          .ok (TxnBuilder.AssetRecord.mk (o.amount - a) o.asset_type o.pub_key
            :: tail)
      else TxnBuilder.collectChanges rest := by
  simp only [TxnBuilder.collectChanges, TxnBuilder.OpenAssetRecord.get_amount,
    TxnBuilder.OpenAssetRecord.get_asset_type,
    TxnBuilder.OpenAssetRecord.get_pub_key, TxnBuilder.AssetRecord.new]

theorem changeOutputs_cons_lt (a : Nat) (o : TxnBuilder.OpenAssetRecord)
    (rest : List (Nat × TxnBuilder.OpenAssetRecord)) (h : a < o.amount) :
    TxnBuilder.changeOutputs ((a, o) :: rest) =
      TxnBuilder.AssetRecord.mk (o.amount - a) o.asset_type o.pub_key ::
        TxnBuilder.changeOutputs rest := by
  simp only [TxnBuilder.changeOutputs, List.filterMap_cons, if_pos h]

theorem changeOutputs_cons_ge (a : Nat) (o : TxnBuilder.OpenAssetRecord)
    (rest : List (Nat × TxnBuilder.OpenAssetRecord)) (h : ¬ a < o.amount) :
    TxnBuilder.changeOutputs ((a, o) :: rest) =
      TxnBuilder.changeOutputs rest := by
  simp only [TxnBuilder.changeOutputs, List.filterMap_cons, if_neg h]

theorem collectChanges_error_of_exceed :
    ∀ pairs : List (Nat × TxnBuilder.OpenAssetRecord),
    (∃ p ∈ pairs, p.2.amount < p.1) →
    TxnBuilder.collectChanges pairs =
      .error TxnBuilder.PlatformError.InputsError
  | [], h => by simp at h
  | (a, o) :: rest, h => by
    rcases h with ⟨p, hmem, hlt⟩
    rw [collectChanges_cons]
    rcases List.mem_cons.mp hmem with rfl | hmem2
    · rw [if_pos (show a > o.amount from hlt)]
    · by_cases hgt : a > o.amount
      · rw [if_pos hgt]
      · rw [if_neg hgt]
        have hrec := collectChanges_error_of_exceed rest ⟨p, hmem2, hlt⟩
        by_cases hlt2 : a < o.amount
        · rw [if_pos hlt2, hrec]
        · rw [if_neg hlt2]
          exact hrec

theorem collectChanges_ok_of_le :
    ∀ pairs : List (Nat × TxnBuilder.OpenAssetRecord),
    (∀ p ∈ pairs, p.1 ≤ p.2.amount) →
    TxnBuilder.collectChanges pairs = .ok (TxnBuilder.changeOutputs pairs)
  | [], _ => rfl
  | (a, o) :: rest, h => by
    have hhead : a ≤ o.amount := h (a, o) (List.mem_cons_self _ _)
    have hrec := collectChanges_ok_of_le rest
      (fun p hp => h p (List.mem_cons_of_mem _ hp))
    rw [collectChanges_cons, if_neg (not_lt.mpr hhead)]
    by_cases hlt2 : a < o.amount
    · rw [if_pos hlt2, hrec, changeOutputs_cons_lt a o rest hlt2]
    · rw [if_neg hlt2, hrec, changeOutputs_cons_ge a o rest hlt2]

theorem collectChanges_ok_inv :
    ∀ (pairs : List (Nat × TxnBuilder.OpenAssetRecord))
      (cs : List TxnBuilder.AssetRecord),
    TxnBuilder.collectChanges pairs = .ok cs →
    cs = TxnBuilder.changeOutputs pairs ∧ ∀ p ∈ pairs, p.1 ≤ p.2.amount
  | [], cs, h => by
    refine ⟨?_, by simp⟩
    simpa [TxnBuilder.collectChanges, TxnBuilder.changeOutputs] using h.symm
  | (a, o) :: rest, cs, h => by
    rw [collectChanges_cons] at h
    by_cases hgt : a > o.amount
    · rw [if_pos hgt] at h
      exact absurd h (by simp)
    · rw [if_neg hgt] at h
      have hle : a ≤ o.amount := not_lt.mp hgt
      by_cases hlt2 : a < o.amount
      · rw [if_pos hlt2] at h
        cases hrec : TxnBuilder.collectChanges rest with
        | error e => rw [hrec] at h; exact absurd h (by simp)
        | ok tail =>
          rw [hrec] at h
          simp only [Except.ok.injEq] at h
          obtain ⟨htail, hall⟩ := collectChanges_ok_inv rest tail hrec
          refine ⟨?_, ?_⟩
          · rw [← h, htail, changeOutputs_cons_lt a o rest hlt2]
          · intro p hp
            rcases List.mem_cons.mp hp with rfl | hp2
            · exact hle
            · exact hall p hp2
      · rw [if_neg hlt2] at h
        obtain ⟨htail, hall⟩ := collectChanges_ok_inv rest cs h
        refine ⟨?_, ?_⟩
        · rw [htail, changeOutputs_cons_ge a o rest hlt2]
        · intro p hp
          rcases List.mem_cons.mp hp with rfl | hp2
          · exact hle
          · exact hall p hp2

theorem changeOutputs_sum :
    ∀ pairs : List (Nat × TxnBuilder.OpenAssetRecord),
    (∀ p ∈ pairs, p.1 ≤ p.2.amount) →
    (pairs.map (fun p => p.2.amount)).sum =
      (pairs.map Prod.fst).sum +
        ((TxnBuilder.changeOutputs pairs).map (·.amount)).sum
  | [], _ => rfl
  | (a, o) :: rest, h => by
    have hhead : a ≤ o.amount := h (a, o) (List.mem_cons_self _ _)
    have hrec := changeOutputs_sum rest
      (fun p hp => h p (List.mem_cons_of_mem _ hp))
    by_cases hlt : a < o.amount
    · rw [changeOutputs_cons_lt a o rest hlt]
      simp only [List.map_cons, List.sum_cons]
      omega
    · rw [changeOutputs_cons_ge a o rest hlt]
      simp only [List.map_cons, List.sum_cons]
      omega

theorem outputArs_eq (asset_type : Nat) :
    ∀ transfer_to : List (Nat × TxnBuilder.AccountAddress),
    TxnBuilder.outputArs asset_type transfer_to =
      .ok (transfer_to.map
        (fun p => TxnBuilder.AssetRecord.mk p.1 asset_type p.2.key))
  | [] => rfl
  | p :: rest => by
    unfold TxnBuilder.outputArs
    simp [TxnBuilder.AssetRecord.new, outputArs_eq asset_type rest]

theorem openAll_length :
    ∀ (tf : List TxnBuilder.TransferFromEntry)
      (oars : List TxnBuilder.OpenAssetRecord),
    TxnBuilder.openAll tf = .ok oars → oars.length = tf.length
  | [], oars, h => by
    simp only [TxnBuilder.openAll, Except.ok.injEq] at h
    simp [← h]
  | e :: rest, oars, h => by
    unfold TxnBuilder.openAll at h
    cases hba : TxnBuilder.open_asset_record e.ba e.sk with
    | none => rw [hba] at h; exact absurd h (by simp)
    | some oar =>
      rw [hba] at h
      cases hrec : TxnBuilder.openAll rest with
      | error err => rw [hrec] at h; exact absurd h (by simp)
      | ok oars2 =>
        rw [hrec] at h
        simp only [Except.ok.injEq] at h
        have := openAll_length rest oars2 hrec
        simp [← h, this]

theorem wadd_foldl :
    ∀ (l : List Nat) (acc : Nat), acc < 2 ^ 64 →
    l.foldl TxnBuilder.wadd acc = (acc + l.sum) % 2 ^ 64
  | [], acc, h => by
    simp only [List.foldl_nil, List.sum_nil, Nat.add_zero]
    exact (Nat.mod_eq_of_lt h).symm
  | a :: l, acc, _ => by
    rw [List.foldl_cons,
      wadd_foldl l (TxnBuilder.wadd acc a) (Nat.mod_lt _ (by norm_num))]
    simp only [TxnBuilder.wadd, List.sum_cons]
    rw [Nat.mod_add_mod, Nat.add_assoc]

theorem wsum_eq (l : List Nat) : TxnBuilder.wsum l = l.sum % 2 ^ 64 := by
  unfold TxnBuilder.wsum
  rw [wadd_foldl l 0 (by norm_num), Nat.zero_add]

theorem map_amount_mk (asset_type : Nat) :
    ∀ transfer_to : List (Nat × TxnBuilder.AccountAddress),
    (transfer_to.map
        (fun p => TxnBuilder.AssetRecord.mk p.1 asset_type p.2.key)).map
      (·.amount) = transfer_to.map Prod.fst
  | [] => rfl
  | p :: rest => by simp [map_amount_mk asset_type rest]

theorem map_snd_amount :
    ∀ z : List (Nat × TxnBuilder.OpenAssetRecord),
    z.map (fun p => p.2.amount) = (z.map Prod.snd).map (·.amount)
  | [] => rfl
  | p :: rest => by simp [map_snd_amount rest]

/-- C1 (amended): for a call to `add_basic_transfer_asset` whose blind
records all open (to `oars`), a requested input amount exceeding its opened
record's amount, or a mismatch of the wrapping u64 totals of requested
inputs and outputs, fails the call with `InputsError`; a success appends
exactly one transfer operation whose outputs are the requested outputs
followed by one change output per partially consumed input (record amount
minus requested amount, owned by the opened record's key), so the total
amount of the opened input records equals the total amount of all produced
outputs modulo `2 ^ 64` — and exactly whenever the requested and output
totals both fit in a u64. -/
theorem c1_add_basic_transfer_asset_spec (entropy : List Nat)
    (b : TxnBuilder.TransactionBuilder)
    (transfer_from : List TxnBuilder.TransferFromEntry)
    (transfer_to : List (Nat × TxnBuilder.AccountAddress))
    (oars : List TxnBuilder.OpenAssetRecord)
    (hopen : TxnBuilder.openAll transfer_from = .ok oars) :
    TxnBuilder.BasicTransferSpec entropy b transfer_from transfer_to oars := by
  constructor
  · intro hfail
    by_cases hex : ∃ p ∈ (transfer_from.map (·.amount)).zip oars,
      p.2.amount < p.1
    · have hc := collectChanges_error_of_exceed _ hex
      simp only [TxnBuilder.add_basic_transfer_asset, hopen, hc]
    · have hle : ∀ p ∈ (transfer_from.map (·.amount)).zip oars,
          p.1 ≤ p.2.amount := by
        intro p hp
        by_contra hcon
        exact hex ⟨p, hp, not_le.mp hcon⟩
      have hc := collectChanges_ok_of_le _ hle
      have hsum : TxnBuilder.wsum (transfer_from.map (·.amount)) ≠
          TxnBuilder.wsum (transfer_to.map Prod.fst) := by
        rcases hfail with h | h
        · exact absurd h hex
        · exact h
      simp only [TxnBuilder.add_basic_transfer_asset, hopen, hc, if_pos hsum]
  · intro b' hb'
    rcases oars with _ | ⟨oar0, rest⟩
    · exfalso
      simp only [TxnBuilder.add_basic_transfer_asset, hopen,
        List.zip_nil_right, TxnBuilder.collectChanges] at hb'
      split at hb' <;> simp at hb'
    · refine ⟨oar0, rest, rfl, ?_⟩
      have hlen : (oar0 :: rest).length = transfer_from.length :=
        openAll_length _ _ hopen
      cases hcc : TxnBuilder.collectChanges
          ((transfer_from.map (·.amount)).zip (oar0 :: rest)) with
      | error e =>
        exfalso
        simp only [TxnBuilder.add_basic_transfer_asset, hopen, hcc] at hb'
        simp at hb'
      | ok cs =>
        obtain ⟨hcs, hle⟩ := collectChanges_ok_inv _ _ hcc
        by_cases hsum : TxnBuilder.wsum (transfer_from.map (·.amount)) ≠
            TxnBuilder.wsum (transfer_to.map Prod.fst)
        · exfalso
          simp only [TxnBuilder.add_basic_transfer_asset, hopen, hcc,
            if_pos hsum] at hb'
          simp at hb'
        · have hw : TxnBuilder.wsum (transfer_from.map (·.amount)) =
              TxnBuilder.wsum (transfer_to.map Prod.fst) := not_ne_iff.mp hsum
          have hmod : (transfer_from.map (·.amount)).sum % 2 ^ 64 =
              (transfer_to.map Prod.fst).sum % 2 ^ 64 := by
            rw [← wsum_eq, ← wsum_eq]
            exact hw
          simp only [TxnBuilder.add_basic_transfer_asset, hopen, hcc,
            if_neg hsum, outputArs_eq,
            TxnBuilder.OpenAssetRecord.get_asset_type,
            TxnBuilder.BasicOutcome.ok.injEq] at hb'
          subst hb'
          have hlenz : (transfer_from.map (·.amount)).length =
              (oar0 :: rest).length := by
            rw [List.length_map, hlen]
          have hfst := List.map_fst_zip (transfer_from.map (·.amount))
            (oar0 :: rest) (le_of_eq hlenz)
          have hsnd := List.map_snd_zip (transfer_from.map (·.amount))
            (oar0 :: rest) (le_of_eq hlenz.symm)
          have hsumz := changeOutputs_sum _ hle
          have hz : ((transfer_from.map (·.amount)).zip
                (oar0 :: rest)).map (fun p => p.2.amount) =
              (oar0 :: rest).map (·.amount) := by
            rw [map_snd_amount, hsnd]
          have hoars : ((oar0 :: rest).map (·.amount)).sum =
              (transfer_from.map (·.amount)).sum +
                ((TxnBuilder.changeOutputs
                  ((transfer_from.map (·.amount)).zip
                    (oar0 :: rest))).map (·.amount)).sum := by
            rw [← hz, hsumz, hfst]
          refine ⟨⟨List.replicate 32 0, transfer_from.map (·.txo_sid),
            oar0 :: rest,
            (transfer_to.map
              (fun p => TxnBuilder.AssetRecord.mk p.1 oar0.asset_type
                p.2.key)) ++ cs⟩, rfl, rfl, ?_, ?_, ?_⟩
          · rw [hcs]
          · rw [hcs]
            simp only [List.map_append, List.sum_append, map_amount_mk]
            rw [hoars, Nat.add_mod, hmod, ← Nat.add_mod]
          · intro hA hB
            have hAB : (transfer_from.map (·.amount)).sum =
                (transfer_to.map Prod.fst).sum := by
              rw [← Nat.mod_eq_of_lt hA, ← Nat.mod_eq_of_lt hB]
              exact hmod
            rw [hcs]
            simp only [List.map_append, List.sum_append, map_amount_mk]
            rw [hoars, hAB]

/-- C1 witness: on a concrete openable one-input transfer, partially
consumed, the hypotheses hold and the full specification follows. -/
theorem c1_add_basic_transfer_asset_witness :
    TxnBuilder.openAll TxnBuilder.tf1 = .ok TxnBuilder.oars1 ∧
    TxnBuilder.BasicTransferSpec [] TxnBuilder.tb0 TxnBuilder.tf1
      TxnBuilder.to1 TxnBuilder.oars1 :=
  ⟨rfl, c1_add_basic_transfer_asset_spec [] TxnBuilder.tb0 TxnBuilder.tf1
    TxnBuilder.to1 TxnBuilder.oars1 rfl⟩

/-- C1 counterexample: two openable inputs each requesting its full record
of `2 ^ 63` units, with no outputs. The requested input total `2 ^ 64`
differs from the output total 0, yet the source's wrapping u64 sums agree
(both are 0), so the call succeeds instead of failing with `InputsError` —
and the produced transfer consumes opened records totalling `2 ^ 64` while
producing no outputs at all: transparent amounts are not preserved. -/
theorem c1_wrapping_breaks_balance_check :
    TxnBuilder.openAll TxnBuilder.tfBig = .ok TxnBuilder.oarsBig ∧
    (TxnBuilder.tfBig.map (·.amount)).sum ≠
      (([] : List (Nat × TxnBuilder.AccountAddress)).map Prod.fst).sum ∧
    TxnBuilder.add_basic_transfer_asset [] TxnBuilder.tb0 TxnBuilder.tfBig []
        = .ok TxnBuilder.bigResult ∧
    TxnBuilder.bigResult.txn.operations =
      [TxnBuilder.Operation.AssetTransfer
        ⟨List.replicate 32 0, [1, 2], TxnBuilder.oarsBig, []⟩] ∧
    (TxnBuilder.oarsBig.map (·.amount)).sum ≠
      (([] : List TxnBuilder.AssetRecord).map (·.amount)).sum := by
  refine ⟨rfl, by decide, rfl, rfl, by decide⟩

/-- C9: `add_operation_transfer_asset` is deterministic across builds: it
seeds its PRNG with the fixed all-zero 32-byte seed, so no ambient entropy
enters the built operation — equal builder states and equal inputs produce
identical results whatever entropy the environment offers, and the operation
body records the all-zero seed. -/
theorem c9_add_operation_transfer_asset_deterministic
    (entropy1 entropy2 : List Nat) (b : TxnBuilder.TransactionBuilder)
    (input_sids : List TxnBuilder.TxoSID)
    (input_records : List TxnBuilder.OpenAssetRecord)
    (output_records : List TxnBuilder.AssetRecord) :
    TxnBuilder.add_operation_transfer_asset entropy1 b input_sids
        input_records output_records =
      TxnBuilder.add_operation_transfer_asset entropy2 b input_sids
        input_records output_records ∧
    ∃ body, (TxnBuilder.add_operation_transfer_asset entropy1 b input_sids
        input_records output_records).txn.operations =
          b.txn.operations ++ [TxnBuilder.Operation.AssetTransfer body] ∧
      body.prng_seed = List.replicate 32 0 :=
  ⟨rfl, ⟨_, rfl, rfl⟩⟩

/-- C10: `add_basic_transfer_asset` called with an empty `transfer_from` and
an empty `transfer_to` panics (the `input_oars[0]` index is out of bounds)
instead of returning a `PlatformError`. -/
theorem c10_add_basic_transfer_asset_empty_panics :
    TxnBuilder.add_basic_transfer_asset [] TxnBuilder.tb0 [] [] =
      TxnBuilder.BasicOutcome.panicked := rfl

/-! ### Related-address derivation -/

theorem insert_fold_eq :
    ∀ (l : List Nat) (s : Finset Ledger.XfrAddress),
    l.foldl (fun acc k => insert (Ledger.XfrAddress.mk k) acc) s =
      s ∪ (l.map Ledger.XfrAddress.mk).toFinset
  | [], s => by simp
  | k :: rest, s => by
    simp only [List.foldl_cons, insert_fold_eq rest, List.map_cons,
      List.toFinset_cons]
    ext a
    simp only [Finset.mem_union, Finset.mem_insert, List.mem_toFinset]
    tauto

theorem opKeyList_toFinset (op : Ledger.Operation) :
    ((Ledger.opKeyList op).map Ledger.XfrAddress.mk).toFinset =
      Ledger.specRelatedKeys op := by
  cases op <;>
    simp [Ledger.opKeyList, Ledger.specRelatedKeys, List.map_append,
      List.toFinset_append, Function.comp_def]

theorem fold_related :
    ∀ (ops : List Ledger.Operation) (s : Finset Ledger.XfrAddress),
    ops.foldl
        (fun s op =>
          (Ledger.opKeyList op).foldl
            (fun s k => insert (Ledger.XfrAddress.mk k) s) s) s =
      s ∪ (ops.map Ledger.specRelatedKeys).foldr (· ∪ ·) ∅
  | [], s => by simp
  | op :: rest, s => by
    simp only [List.foldl_cons, List.map_cons, List.foldr_cons]
    rw [fold_related rest, insert_fold_eq, opKeyList_toFinset,
      Finset.union_assoc]

/-- C2: `get_related_addresses` returns exactly the union, over the
transaction's operations, of the per-operation related-key sets given by the
specification's table (`specRelatedKeys`): input and output keys for
transfers, the issuer key for issue, define and memo updates, the transparent
input key for BarToAbar, the transparent output key for AbarToBar, nothing
for anonymous transfers, the `get_related_pubkeys` set for staking
operations, and the account key for ConvertAccount. -/
theorem c2_get_related_addresses_union (txn : Ledger.Transaction) :
    Ledger.get_related_addresses txn =
      (txn.body.operations.map Ledger.specRelatedKeys).foldr (· ∪ ·) ∅ := by
  unfold Ledger.get_related_addresses
  rw [fold_related, Finset.empty_union]

/-! ### Map-update lemmas for the API cache -/

theorem updAll_cons {K V : Type} [DecidableEq K] (p : K × V)
    (ps : List (K × V)) (m : K → V) :
    Ledger.updAll (p :: ps) m = Ledger.updAll ps (Ledger.upd1 m p.1 p.2) :=
  rfl

theorem updAll_append {K V : Type} [DecidableEq K] (ps qs : List (K × V))
    (m : K → V) :
    Ledger.updAll (ps ++ qs) m = Ledger.updAll qs (Ledger.updAll ps m) :=
  List.foldl_append _ _ _ _

theorem appAll_append {K V : Type} [DecidableEq K]
    (ps qs : List (K × List V)) (m : K → List V) :
    Ledger.appAll (ps ++ qs) m = Ledger.appAll qs (Ledger.appAll ps m) :=
  List.foldl_append _ _ _ _

theorem updAll_apply_ne {K V : Type} [DecidableEq K] :
    ∀ (ps : List (K × V)) (m : K → V) (k : K),
    (∀ p ∈ ps, p.1 ≠ k) → Ledger.updAll ps m k = m k
  | [], _, _, _ => rfl
  | p :: ps, m, k, h => by
    rw [updAll_cons,
      updAll_apply_ne ps _ k (fun q hq => h q (List.mem_cons_of_mem _ hq))]
    simp only [Ledger.upd1]
    exact if_neg (fun hk => h p (List.mem_cons_self _ _) hk.symm)

theorem updAll_congr {K V : Type} [DecidableEq K] :
    ∀ (ps : List (K × V)) (m₁ m₂ : K → V),
    (∀ k, (∀ p ∈ ps, p.1 ≠ k) → m₁ k = m₂ k) →
    Ledger.updAll ps m₁ = Ledger.updAll ps m₂
  | [], _, _, h => funext fun k => h k (by simp)
  | p :: ps, m₁, m₂, h => by
    rw [updAll_cons, updAll_cons]
    apply updAll_congr ps
    intro k hk
    simp only [Ledger.upd1]
    by_cases hkp : k = p.1
    · rw [if_pos hkp, if_pos hkp]
    · rw [if_neg hkp, if_neg hkp]
      apply h
      intro q hq
      rcases List.mem_cons.mp hq with rfl | hq2
      · exact fun he => hkp he.symm
      · exact hk q hq2

theorem updAll_idem {K V : Type} [DecidableEq K] (ps : List (K × V))
    (m : K → V) :
    Ledger.updAll ps (Ledger.updAll ps m) = Ledger.updAll ps m :=
  updAll_congr ps _ _ (fun k hk => updAll_apply_ne ps m k hk)

theorem cache_hist_data_empty (c : Ledger.ApiCache) :
    Ledger.cache_hist_data c {} = c := rfl

/-! ### Per-field characterization of the block walk of `update_api_cache` -/

theorem foldl_claim_hist (L : Ledger.LedgerState) :
    ∀ (txns : List Ledger.FinalizedTxn) (c : Ledger.ApiCache),
    (txns.foldl (Ledger.apply_txn L) c).claim_hist_txns =
      Ledger.updAll (txns.flatMap Ledger.claimPairs) c.claim_hist_txns
  | [], _ => rfl
  | t :: ts, c => by
    rw [List.foldl_cons, foldl_claim_hist L ts, List.flatMap_cons,
      updAll_append]
    rfl

theorem foldl_coinbase (L : Ledger.LedgerState) :
    ∀ (txns : List Ledger.FinalizedTxn) (c : Ledger.ApiCache),
    (txns.foldl (Ledger.apply_txn L) c).coinbase_oper_hist =
      Ledger.updAll (txns.flatMap Ledger.coinbasePairs) c.coinbase_oper_hist
  | [], _ => rfl
  | t :: ts, c => by
    rw [List.foldl_cons, foldl_coinbase L ts, List.flatMap_cons, updAll_append]
    rfl

theorem foldl_related_txns (L : Ledger.LedgerState) :
    ∀ (txns : List Ledger.FinalizedTxn) (c : Ledger.ApiCache),
    (txns.foldl (Ledger.apply_txn L) c).related_transactions =
      Ledger.updAll (txns.flatMap Ledger.relatedPairs) c.related_transactions
  | [], _ => rfl
  | t :: ts, c => by
    rw [List.foldl_cons, foldl_related_txns L ts, List.flatMap_cons,
      updAll_append]
    rfl

theorem foldl_related_transfers (L : Ledger.LedgerState) :
    ∀ (txns : List Ledger.FinalizedTxn) (c : Ledger.ApiCache),
    (txns.foldl (Ledger.apply_txn L) c).related_transfers =
      Ledger.updAll (txns.flatMap Ledger.transferPairs) c.related_transfers
  | [], _ => rfl
  | t :: ts, c => by
    rw [List.foldl_cons, foldl_related_transfers L ts, List.flatMap_cons,
      updAll_append]
    rfl

theorem foldl_created (L : Ledger.LedgerState) :
    ∀ (txns : List Ledger.FinalizedTxn) (c : Ledger.ApiCache),
    (txns.foldl (Ledger.apply_txn L) c).created_assets =
      Ledger.updAll (txns.flatMap Ledger.createdPairs) c.created_assets
  | [], _ => rfl
  | t :: ts, c => by
    rw [List.foldl_cons, foldl_created L ts, List.flatMap_cons, updAll_append]
    rfl

theorem foldl_issuances (L : Ledger.LedgerState) :
    ∀ (txns : List Ledger.FinalizedTxn) (c : Ledger.ApiCache),
    (txns.foldl (Ledger.apply_txn L) c).issuances =
      Ledger.appAll (txns.flatMap Ledger.issuancePairs) c.issuances
  | [], _ => rfl
  | t :: ts, c => by
    rw [List.foldl_cons, foldl_issuances L ts, List.flatMap_cons,
      appAll_append]
    rfl

theorem foldl_token_issuances (L : Ledger.LedgerState) :
    ∀ (txns : List Ledger.FinalizedTxn) (c : Ledger.ApiCache),
    (txns.foldl (Ledger.apply_txn L) c).token_code_issuances =
      Ledger.appAll (txns.flatMap Ledger.tokenIssuancePairs)
        c.token_code_issuances
  | [], _ => rfl
  | t :: ts, c => by
    rw [List.foldl_cons, foldl_token_issuances L ts, List.flatMap_cons,
      appAll_append]
    rfl

theorem foldl_utxos_idx (L : Ledger.LedgerState) :
    ∀ (txns : List Ledger.FinalizedTxn) (c : Ledger.ApiCache),
    (txns.foldl (Ledger.apply_txn L) c).utxos_to_map_index =
      Ledger.updAll (txns.flatMap (Ledger.utxoAddrPairs L))
        c.utxos_to_map_index
  | [], _ => rfl
  | t :: ts, c => by
    rw [List.foldl_cons, foldl_utxos_idx L ts, List.flatMap_cons,
      updAll_append]
    rfl

theorem foldl_txo_txnid (L : Ledger.LedgerState) :
    ∀ (txns : List Ledger.FinalizedTxn) (c : Ledger.ApiCache),
    (txns.foldl (Ledger.apply_txn L) c).txo_to_txnid =
      Ledger.updAll (txns.flatMap Ledger.txoTxnidPairs) c.txo_to_txnid
  | [], _ => rfl
  | t :: ts, c => by
    rw [List.foldl_cons, foldl_txo_txnid L ts, List.flatMap_cons,
      updAll_append]
    rfl

theorem foldl_sid_hash (L : Ledger.LedgerState) :
    ∀ (txns : List Ledger.FinalizedTxn) (c : Ledger.ApiCache),
    (txns.foldl (Ledger.apply_txn L) c).txn_sid_to_hash =
      Ledger.updAll (txns.flatMap Ledger.sidHashPairs) c.txn_sid_to_hash
  | [], _ => rfl
  | t :: ts, c => by
    rw [List.foldl_cons, foldl_sid_hash L ts, List.flatMap_cons, updAll_append]
    rfl

theorem foldl_hash_sid (L : Ledger.LedgerState) :
    ∀ (txns : List Ledger.FinalizedTxn) (c : Ledger.ApiCache),
    (txns.foldl (Ledger.apply_txn L) c).txn_hash_to_sid =
      Ledger.updAll (txns.flatMap Ledger.hashSidPairs) c.txn_hash_to_sid
  | [], _ => rfl
  | t :: ts, c => by
    rw [List.foldl_cons, foldl_hash_sid L ts, List.flatMap_cons, updAll_append]
    rfl

theorem foldl_owner_memos (L : Ledger.LedgerState) :
    ∀ (txns : List Ledger.FinalizedTxn) (c : Ledger.ApiCache),
    (txns.foldl (Ledger.apply_txn L) c).owner_memos =
      Ledger.updAll (txns.flatMap Ledger.ownerMemoPairs) c.owner_memos
  | [], _ => rfl
  | t :: ts, c => by
    rw [List.foldl_cons, foldl_owner_memos L ts, List.flatMap_cons,
      updAll_append]
    rfl

theorem foldl_atxos_idx (L : Ledger.LedgerState) :
    ∀ (txns : List Ledger.FinalizedTxn) (c : Ledger.ApiCache),
    (txns.foldl (Ledger.apply_txn L) c).atxos_to_map_index =
      Ledger.updAll (txns.flatMap Ledger.atxoAddrPairs) c.atxos_to_map_index
  | [], _ => rfl
  | t :: ts, c => by
    rw [List.foldl_cons, foldl_atxos_idx L ts, List.flatMap_cons,
      updAll_append]
    rfl

theorem foldl_abar_memos (L : Ledger.LedgerState) :
    ∀ (txns : List Ledger.FinalizedTxn) (c : Ledger.ApiCache),
    (txns.foldl (Ledger.apply_txn L) c).abar_memos =
      Ledger.updAll (txns.flatMap Ledger.abarMemoPairs) c.abar_memos
  | [], _ => rfl
  | t :: ts, c => by
    rw [List.foldl_cons, foldl_abar_memos L ts, List.flatMap_cons,
      updAll_append]
    rfl

theorem foldl_atxo_txnid (L : Ledger.LedgerState) :
    ∀ (txns : List Ledger.FinalizedTxn) (c : Ledger.ApiCache),
    (txns.foldl (Ledger.apply_txn L) c).atxo_to_txnid =
      Ledger.updAll (txns.flatMap Ledger.atxoTxnidPairs) c.atxo_to_txnid
  | [], _ => rfl
  | t :: ts, c => by
    rw [List.foldl_cons, foldl_atxo_txnid L ts, List.flatMap_cons,
      updAll_append]
    rfl

theorem foldl_pfx (L : Ledger.LedgerState) :
    ∀ (txns : List Ledger.FinalizedTxn) (c : Ledger.ApiCache),
    (txns.foldl (Ledger.apply_txn L) c).pfx = c.pfx
  | [], _ => rfl
  | t :: ts, c => by
    rw [List.foldl_cons, foldl_pfx L ts]
    rfl

theorem foldl_glob_rate (L : Ledger.LedgerState) :
    ∀ (txns : List Ledger.FinalizedTxn) (c : Ledger.ApiCache),
    (txns.foldl (Ledger.apply_txn L) c).staking_global_rate_hist =
      c.staking_global_rate_hist
  | [], _ => rfl
  | t :: ts, c => by
    rw [List.foldl_cons, foldl_glob_rate L ts]
    rfl

theorem foldl_self_d (L : Ledger.LedgerState) :
    ∀ (txns : List Ledger.FinalizedTxn) (c : Ledger.ApiCache),
    (txns.foldl (Ledger.apply_txn L) c).staking_self_delegation_hist =
      c.staking_self_delegation_hist
  | [], _ => rfl
  | t :: ts, c => by
    rw [List.foldl_cons, foldl_self_d L ts]
    rfl

theorem foldl_d_amount (L : Ledger.LedgerState) :
    ∀ (txns : List Ledger.FinalizedTxn) (c : Ledger.ApiCache),
    (txns.foldl (Ledger.apply_txn L) c).staking_delegation_amount_hist =
      c.staking_delegation_amount_hist
  | [], _ => rfl
  | t :: ts, c => by
    rw [List.foldl_cons, foldl_d_amount L ts]
    rfl

theorem foldl_rwd (L : Ledger.LedgerState) :
    ∀ (txns : List Ledger.FinalizedTxn) (c : Ledger.ApiCache),
    (txns.foldl (Ledger.apply_txn L) c).staking_delegation_rwd_hist =
      c.staking_delegation_rwd_hist
  | [], _ => rfl
  | t :: ts, c => by
    rw [List.foldl_cons, foldl_rwd L ts]
    rfl

/-- C3 (amended): re-applying `update_api_cache` when the last committed
block is unchanged leaves every index of the cache in the same state except
the per-issuer and per-asset issuance lists, which receive the block's
issuance records appended once more (`cache_issuance` extends the lists, it
does not overwrite them). -/
theorem c3_update_api_cache_reapply (L : Ledger.LedgerState) :
    Ledger.ReapplySpec L := by
  simp only [Ledger.ReapplySpec]
  cases hlast : L.blocks.getLast? with
  | none =>
    simp only [Ledger.update_api_cache, hlast, Ledger.blockIssuanceAll,
      Ledger.blockTokenIssuanceAll, Ledger.txnsOf, cache_hist_data_empty,
      List.flatMap_nil]
    and_intros <;> trivial
  | some block =>
    simp only [Ledger.update_api_cache, hlast, Ledger.blockIssuanceAll,
      Ledger.blockTokenIssuanceAll, Ledger.txnsOf, cache_hist_data_empty]
    and_intros <;>
      first
        | trivial
        | (rw [foldl_pfx])
        | (rw [foldl_glob_rate])
        | (rw [foldl_self_d])
        | (rw [foldl_d_amount])
        | (rw [foldl_rwd])
        | (rw [foldl_issuances])
        | (rw [foldl_token_issuances])
        | (rw [foldl_related_txns, foldl_related_txns];
            exact updAll_idem _ _)
        | (rw [foldl_related_transfers, foldl_related_transfers];
            exact updAll_idem _ _)
        | (rw [foldl_claim_hist, foldl_claim_hist]; exact updAll_idem _ _)
        | (rw [foldl_coinbase, foldl_coinbase]; exact updAll_idem _ _)
        | (rw [foldl_created, foldl_created]; exact updAll_idem _ _)
        | (rw [foldl_owner_memos, foldl_owner_memos]; exact updAll_idem _ _)
        | (rw [foldl_abar_memos, foldl_abar_memos]; exact updAll_idem _ _)
        | (rw [foldl_utxos_idx, foldl_utxos_idx]; exact updAll_idem _ _)
        | (rw [foldl_atxos_idx, foldl_atxos_idx]; exact updAll_idem _ _)
        | (rw [foldl_txo_txnid, foldl_txo_txnid]; exact updAll_idem _ _)
        | (rw [foldl_atxo_txnid, foldl_atxo_txnid]; exact updAll_idem _ _)
        | (rw [foldl_sid_hash, foldl_sid_hash]; exact updAll_idem _ _)
        | (rw [foldl_hash_sid, foldl_hash_sid]; exact updAll_idem _ _)

/-- C3 counterexample: on a ledger whose last block holds one issuance,
running `update_api_cache` twice leaves the issuer's issuance list different
from running it once (the records are appended a second time), so the cache
is not idempotent on re-apply of the same block. -/
theorem c3_reapply_changes_issuances :
    (Ledger.update_api_cache true
        (Ledger.update_api_cache true Ledger.issueLedger)).api_cache.issuances
        ⟨7⟩ ≠
      (Ledger.update_api_cache true Ledger.issueLedger).api_cache.issuances
        ⟨7⟩ := by
  decide

/-! ### The consensus and HTTP entry points -/

/-- C4 counterexample: on a concrete request that deserializes, `check_tx`
acquires the write lock (`get_committed_state().write()`), not the read lock
the claim states. -/
theorem c4_check_tx_takes_write_lock :
    (Abci.check_tx Abci.la0 (Abci.TxMsg.bytes_of Ledger.txEmpty)).2.2 =
        some Abci.LockKind.write ∧
      some Abci.LockKind.write ≠ some Abci.LockKind.read :=
  ⟨rfl, by decide⟩

/-- C4 (amended): `check_tx` never mutates the committed ledger data (only
the PRNG advances); bytes that do not deserialize answer code 1 with log
"Could not unpack transaction" before any lock is taken; otherwise the
callback takes the write lock and answers code 1 "Check failed" when the
effect computation fails, and the fresh code-0 response when it succeeds. -/
theorem c4_check_tx_spec (la : Abci.LedgerStateWithPrng) (req : Abci.TxMsg) :
    Abci.CheckTxSpec la req := by
  unfold Abci.CheckTxSpec
  cases req with
  | garbage =>
    exact ⟨rfl, fun _ => ⟨rfl, rfl, rfl⟩, fun tx h => by
      simp [Abci.convert_tx] at h⟩
  | bytes_of t =>
    cases hre : (Ledger.compute_effect la.prng t).1 with
    | error e =>
      refine ⟨?_, ?_, ?_⟩
      · show (Abci.check_tx la (.bytes_of t)).2.1.committed = la.committed
        simp only [Abci.check_tx, Abci.convert_tx, hre]
      · intro h
        simp [Abci.convert_tx] at h
      · intro tx htx
        simp only [Abci.convert_tx, Option.some.injEq] at htx
        subst htx
        refine ⟨?_, ?_, ?_⟩
        · simp only [Abci.check_tx, Abci.convert_tx, hre]
        · intro _
          simp only [Abci.check_tx, Abci.convert_tx, hre]
        · intro hok
          rw [hre] at hok
          simp [Abci.isOkB] at hok
    | ok eff =>
      refine ⟨?_, ?_, ?_⟩
      · show (Abci.check_tx la (.bytes_of t)).2.1.committed = la.committed
        simp only [Abci.check_tx, Abci.convert_tx, hre]
      · intro h
        simp [Abci.convert_tx] at h
      · intro tx htx
        simp only [Abci.convert_tx, Option.some.injEq] at htx
        subst htx
        refine ⟨?_, ?_, ?_⟩
        · simp only [Abci.check_tx, Abci.convert_tx, hre]
        · intro hbad
          rw [hre] at hbad
          simp [Abci.isOkB] at hbad
        · intro _
          simp only [Abci.check_tx, Abci.convert_tx, hre]

/-- C4 witness: the three response shapes are all reachable on concrete
requests — a valid transaction (code 0), undecodable bytes, and a
duplicate-input transaction. -/
theorem c4_check_tx_witness :
    (Abci.check_tx Abci.la0 (Abci.TxMsg.bytes_of Ledger.txEmpty)).1 =
        ({} : Abci.ResponseCheckTx) ∧
      (Abci.check_tx Abci.la0 Abci.TxMsg.garbage).1 =
        { code := 1, log := "Could not unpack transaction" } ∧
      (Abci.check_tx Abci.la0 (Abci.TxMsg.bytes_of Ledger.txDup)).1 =
        { code := 1, log := "Check failed" } := by
  refine ⟨?_, ?_, ?_⟩
  · exact ((c4_check_tx_spec Abci.la0 (.bytes_of Ledger.txEmpty)).2.2
      Ledger.txEmpty rfl).2.2 rfl
  · exact ((c4_check_tx_spec Abci.la0 .garbage).2.1 rfl).1
  · exact ((c4_check_tx_spec Abci.la0 (.bytes_of Ledger.txDup)).2.2
      Ledger.txDup rfl).2.1 rfl

/-- C5: the `submit_transaction` handler answers 200 with the handle as JSON
and the updated server when `handle_transaction` succeeds, and 400 with
exactly the error's message — the server, and in particular its status map,
untouched, so no handle is issued — when it fails. -/
theorem c5_submit_transaction_spec (s : Submission.SubmissionServerState)
    (tx : Ledger.Transaction) :
    (∀ h s2, Submission.handle_transaction s tx = .ok (h, s2) →
      Submission.submit_transaction s tx =
        (⟨200, Submission.HttpBody.json_handle h⟩, s2)) ∧
    (∀ e, Submission.handle_transaction s tx = .error e →
      Submission.submit_transaction s tx =
          (⟨400, Submission.HttpBody.text e.msg⟩, s) ∧
        (Submission.submit_transaction s tx).2.txn_status = s.txn_status) := by
  constructor
  · intro h s2 hh
    simp only [Submission.submit_transaction, hh]
  · intro e he
    constructor
    · simp only [Submission.submit_transaction, he]
    · simp only [Submission.submit_transaction, he]

/-- C5 witness: a concrete acceptance (200 with the issued handle) and a
concrete rejection (400 carrying the error message, server unchanged). -/
theorem c5_submit_transaction_witness :
    Submission.handle_transaction Submission.sub0 Ledger.txEmpty =
        .ok (Submission.handle0, Submission.subOk) ∧
      Submission.submit_transaction Submission.sub0 Ledger.txEmpty =
        (⟨200, Submission.HttpBody.json_handle Submission.handle0⟩,
          Submission.subOk) ∧
      Submission.handle_transaction Submission.sub0 Ledger.txDup =
        .error ⟨"Check failed"⟩ ∧
      Submission.submit_transaction Submission.sub0 Ledger.txDup =
        (⟨400, Submission.HttpBody.text "Check failed"⟩, Submission.sub0) :=
  ⟨rfl,
    (c5_submit_transaction_spec Submission.sub0 Ledger.txEmpty).1
      Submission.handle0 Submission.subOk rfl,
    rfl,
    ((c5_submit_transaction_spec Submission.sub0 Ledger.txDup).2
      ⟨"Check failed"⟩ rfl).1⟩

/-- C8: when the submission server's `end_block` returns an error inside the
consensus `end_block` callback, the callback panics (the `unwrap` branch is
reachable: a server with no pending transaction produces it); whenever
`end_block` succeeds the callback returns normally. -/
theorem c8_end_block_panics_on_error :
    Abci.end_block Submission.sub0 = Abci.EndBlockOutcome.panicked ∧
    ∀ s s2, Submission.ss_end_block s = .ok s2 →
      Abci.end_block s = Abci.EndBlockOutcome.normal s2 := by
  constructor
  · rfl
  · intro s s2 h
    simp only [Abci.end_block, h]

/-- C8 witness: a concrete succeeding `end_block` returns normally. -/
theorem c8_end_block_witness :
    Submission.ss_end_block Submission.sub1 = .ok Submission.sub1Committed ∧
      Abci.end_block Submission.sub1 =
        Abci.EndBlockOutcome.normal Submission.sub1Committed :=
  ⟨rfl, c8_end_block_panics_on_error.2 Submission.sub1
    Submission.sub1Committed rfl⟩

/-! ### CLI staking helpers -/

/-- C6: `convert_commission_rate` errors exactly when the rate is above 1 or
below 0, and otherwise returns the pair of the truncated product with 10000
and the denominator 10000 — a rational with numerator at most 10000 whose
value lies in the unit interval. -/
theorem c6_convert_commission_rate_spec (cr : ℚ) :
    ((1 < cr ∨ cr < 0) →
      ∃ msg, FinUtils.convert_commission_rate cr = .error msg) ∧
    (0 ≤ cr → cr ≤ 1 →
      FinUtils.convert_commission_rate cr =
          .ok ((⌊cr * 10000⌋).toNat, 10000) ∧
        (⌊cr * 10000⌋).toNat ≤ 10000 ∧
        (0 : ℚ) ≤ ((⌊cr * 10000⌋).toNat : ℚ) / 10000 ∧
        ((⌊cr * 10000⌋).toNat : ℚ) / 10000 ≤ 1) := by
  constructor
  · intro h
    rcases h with h | h
    · exact ⟨_, by rw [FinUtils.convert_commission_rate, if_pos h]⟩
    · refine ⟨"commission rate must be a positive float number", ?_⟩
      rw [FinUtils.convert_commission_rate, if_neg (by linarith),
        if_pos (by linarith)]
  · intro h0 h1
    have hg1 : ¬ (1 < cr) := not_lt.mpr h1
    have hg2 : ¬ (0 > cr) := not_lt.mpr h0
    have hle : cr * 10000 ≤ 10000 := by nlinarith
    have hfl : ⌊cr * 10000⌋ ≤ 10000 := by
      have h2 := Int.floor_le_floor hle
      simpa using h2
    have hnat : (⌊cr * 10000⌋).toNat ≤ 10000 := Int.toNat_le.mpr hfl
    refine ⟨?_, hnat, ?_, ?_⟩
    · rw [FinUtils.convert_commission_rate, if_neg hg1, if_neg hg2]
    · positivity
    · rw [div_le_one (by norm_num)]
      exact_mod_cast hnat

/-- C6 witness: commission rate one half is accepted and becomes 5000 over
10000, inside the unit interval. -/
theorem c6_convert_commission_rate_witness :
    ((0 : ℚ) ≤ 1 / 2) ∧ ((1 / 2 : ℚ) ≤ 1) ∧
      (FinUtils.convert_commission_rate (1 / 2) =
          .ok ((⌊(1 / 2 : ℚ) * 10000⌋).toNat, 10000) ∧
        (⌊(1 / 2 : ℚ) * 10000⌋).toNat ≤ 10000 ∧
        (0 : ℚ) ≤ ((⌊(1 / 2 : ℚ) * 10000⌋).toNat : ℚ) / 10000 ∧
        ((⌊(1 / 2 : ℚ) * 10000⌋).toNat : ℚ) / 10000 ≤ 1) ∧
      FinUtils.convert_commission_rate (1 / 2) = .ok (5000, 10000) := by
  refine ⟨by norm_num, by norm_num,
    (c6_convert_commission_rate_spec (1 / 2)).2 (by norm_num) (by norm_num),
    ?_⟩
  rw [FinUtils.convert_commission_rate, if_neg (by norm_num),
    if_neg (by norm_num)]
  norm_num
  decide

/-- C7: each delegation transaction built by the CLI — `stake`,
`stake_append` and `gen_delegate_tx` (used by `delegate`) — carries a
delegation operation bonding the amount and a transparent transfer paying
exactly that amount to `BLACK_HOLE_PUBKEY_STAKING` with non-confidential
amount and non-confidential asset type. -/
theorem c7_delegation_includes_principal_transfer (kp : FinUtils.XfrKeyPair)
    (vkp td_pubkey am : Nat) (cr : Nat × Nat) (memo : Option String)
    (td_addr validator : String) :
    (∃ tx, FinUtils.stake_tx kp vkp td_pubkey am cr memo = .ok tx ∧
      FinUtils.hasDelegationOf tx am ∧ FinUtils.paysToStakingSink tx am) ∧
    (∃ tx, FinUtils.stake_append_tx kp am td_addr = .ok tx ∧
      FinUtils.hasDelegationOf tx am ∧ FinUtils.paysToStakingSink tx am) ∧
    (∃ tx, FinUtils.gen_delegate_tx kp am validator = .ok tx ∧
      FinUtils.hasDelegationOf tx am ∧ FinUtils.paysToStakingSink tx am) := by
  refine ⟨⟨_, rfl, ?_, ?_⟩, ⟨_, rfl, ?_, ?_⟩, ⟨_, rfl, ?_, ?_⟩⟩
  · exact ⟨_, List.Mem.head _, rfl⟩
  · exact ⟨_, List.Mem.tail _ (List.Mem.head _), List.Mem.head _⟩
  · exact ⟨_, List.Mem.head _, rfl⟩
  · exact ⟨_, List.Mem.tail _ (List.Mem.head _), List.Mem.head _⟩
  · exact ⟨_, List.Mem.tail _ (List.Mem.head _), rfl⟩
  · exact ⟨_, List.Mem.head _, List.Mem.head _⟩
